import Mathlib

/-!
Verification of the kstack generation / validation / reconciliation pipeline.

Each definition below is a shallow embedding of the corresponding Python
function of the kstack repository (file and symbol named in its doc comment).
Python dicts with a fixed key set become structures; optional keys become
`Option` fields (`none` models an absent key); Python dict iteration order is
modelled by association lists in insertion order; fallible code returns
`Except`.  Theorems at the end of the file settle the frozen claims about the
pipeline.
-/

namespace KStack

/-! ## Compose data model

Mirrors the dict shapes consumed by `src/kstack` (see `compose_parser.py`:
the parsed model is a dict with keys `apps`, `volumes`, `configs`,
`secrets`).  Only the fields read by the verified components are modelled;
`networks` and `env_file` (inherited but never read by any generator) and
container-level `environment` / container ports are omitted because no claim
mentions them. -/

/-- A `ports` list entry: either a compact string form (`"8080:80"`,
`"80:80/udp"`, URL form) or a structured mapping with optional
`published` / `target` / `protocol` keys.  A structured entry whose
`protocol` key is absent is modelled by `protocol = none`. -/
inductive PortEntry where
  | str (s : String)
  | dict (published : Option Int) (target : Option Int) (protocol : Option String)
deriving DecidableEq, Repr

/-- A positional `volumes` list entry; the code ignores entries that are not
strings (`isinstance(volume, str)` checks), modelled by `other`. -/
inductive VolumeEntry where
  | str (s : String)
  | other
deriving DecidableEq, Repr

/-- A `volumesFrom` entry: a dict that either has a `config` key (carrying a
`name` and an optional `mountPath`) or not (`other`, skipped everywhere via
`if 'config' in volume`).  Per the data model, `config.name` is required. -/
inductive VolumesFromEntry where
  | config (name : String) (mountPath : Option String)
  | other
deriving DecidableEq, Repr

/-- An `envFrom` entry: `{config: {name}}`, `{secret: {name}}`, or neither.
The code dispatches `if 'config' in env: ... elif 'secret' in env`, so an
entry carrying both keys behaves as a config reference; the constructors
model the branch taken. -/
inductive EnvFromEntry where
  | config (name : String)
  | secret (name : String)
  | other
deriving DecidableEq, Repr

/-- An `expose` list entry's mapping values: either a settings dict or some
non-dict value (skipped via `isinstance(settings, dict)`). -/
inductive SettingsVal where
  | dict (protocol : Option String) (path : Option String) (port : Option Int)
      (ingressClassName : Option String)
  | other
deriving DecidableEq, Repr

/-- An `expose` list entry: a URL string, a mapping from hosts to settings
(Python preserves key insertion order), or some other value (skipped). -/
inductive ExposeEntry where
  | str (s : String)
  | dict (entries : List (String × SettingsVal))
  | other
deriving DecidableEq, Repr

/-- The container-level fields shared by apps and sidecars (the Python code
passes the same raw dicts to `_create_container` and
`_generate_container_volumes` for both).  `none` models an absent key. -/
structure SidecarConfig where
  image : String
  ports : Option (List PortEntry) := none
  volumes : Option (List VolumeEntry) := none
  volumesFrom : Option (List VolumesFromEntry) := none
  envFrom : Option (List EnvFromEntry) := none
deriving DecidableEq, Repr

/-- An app spec: the container-level fields plus `expose`, `sidecars` and
`deploy.replicas` (modelled directly as the optional replica count read by
`config.get('deploy', {}).get('replicas', 1)`).  `sidecars` absent and
`sidecars: {}` behave identically (`config.get('sidecars', {})`), so both
are the empty list. -/
structure AppConfig where
  image : String
  ports : Option (List PortEntry) := none
  expose : Option (List ExposeEntry) := none
  volumes : Option (List VolumeEntry) := none
  volumesFrom : Option (List VolumesFromEntry) := none
  envFrom : Option (List EnvFromEntry) := none
  sidecars : List (String × SidecarConfig) := []
  replicas : Option Int := none
deriving DecidableEq, Repr

/-- The container-level view of an app spec (the Python code hands the app's
own dict to the container helpers). -/
def AppConfig.ctr (c : AppConfig) : SidecarConfig :=
  { image := c.image, ports := c.ports, volumes := c.volumes,
    volumesFrom := c.volumesFrom, envFrom := c.envFrom }

/-- A top-level `configs` entry: `config_data.get('external', False)` and
`config_data.get('data', {})`. -/
structure ConfigSpec where
  external : Bool := false
  data : List (String × String) := []
deriving DecidableEq, Repr

/-- A top-level `secrets` entry. -/
structure SecretSpec where
  external : Bool := false
deriving DecidableEq, Repr

/-- A top-level `volumes` entry: `config.get('size', '1Gi')`. -/
structure VolumeSpec where
  size : Option String := none
deriving DecidableEq, Repr

/-- The parsed compose model returned by `ComposeParser.parse`
(`compose_parser.py`): a dict with keys `apps`, `volumes`, `configs`,
`secrets`, each an insertion-ordered mapping. -/
structure ComposeModel where
  apps : List (String × AppConfig) := []
  volumes : List (String × VolumeSpec) := []
  configs : List (String × ConfigSpec) := []
  secrets : List (String × SecretSpec) := []
deriving DecidableEq, Repr

/-! ## String helpers

Executable models of the Python string operations used by the code, written
by structural recursion on the character list so that concrete claims can be
settled by kernel reduction. -/

/-- `l.split(sep)` on character lists for a one-character separator
(`"".split(c)` is `['']`, like Python). -/
def splitChar (sep : Char) : List Char → List (List Char)
  | [] => [[]]
  | c :: t =>
    let r := splitChar sep t
    if c = sep then [] :: r
    else
      match r with
      | h :: t2 => (c :: h) :: t2
      | [] => [[c]]

/-- Python `s.split(sep)` for a one-character separator. -/
def pySplit (s : String) (sep : Char) : List String :=
  (splitChar sep s.data).map List.asString

example : pySplit "8080:80" ':' = ["8080", "80"] := by decide
example : pySplit "" ':' = [""] := by decide
example : pySplit "a::b" ':' = ["a", "", "b"] := by decide

/-- Digit run to a number, most significant first. -/
def digitsToNatAux (acc : Nat) : List Char → Option Nat
  | [] => some acc
  | c :: t => if c.isDigit then digitsToNatAux (acc * 10 + (c.toNat - 48)) t else none

/-- Digit run to a number: `none` unless the list is non-empty and all
digits. -/
def digitsToNat (l : List Char) : Option Nat :=
  if l.isEmpty then none else digitsToNatAux 0 l

/-- Python `int(s)` on the strings reaching it in this code base (an
optional sign followed by digits); `none` models the `ValueError` that a
surrounding `try` turns into a skip.  (Python also tolerates surrounding
whitespace and inner underscores; no claim depends on such inputs.) -/
def pyInt? (s : String) : Option Int :=
  match s.data with
  | '-' :: t => (digitsToNat t).map fun n => -(n : Int)
  | '+' :: t => (digitsToNat t).map fun n => (n : Int)
  | l => (digitsToNat l).map fun n => (n : Int)

example : pyInt? "8080" = some 8080 := by decide
example : pyInt? "-12" = some (-12) := by decide
example : pyInt? "" = none := by decide
example : pyInt? "8x" = none := by decide

/-- Python `s.startswith(p)`. -/
def pyStartsWith (s p : String) : Bool := p.data.isPrefixOf s.data

/-- Python `c in s` for a single character. -/
def pyContains (s : String) (c : Char) : Bool := s.data.contains c

/-- Python `s.upper()` on ASCII protocol names. -/
def pyUpper (s : String) : String := (s.data.map Char.toUpper).asString

example : pyUpper "tcp" = "TCP" := by decide

/-- Python `s.rstrip(c)` for a one-character strip set. -/
def pyRstrip (s : String) (c : Char) : String :=
  ((s.data.reverse.dropWhile (· = c)).reverse).asString

example : pyRstrip "host::" ':' = "host" := by decide

/-- Truthiness of `config.get(key)` for an optional-list field (an absent
key and an empty list are both falsy). -/
def listTruthy {α : Type} : Option (List α) → Bool
  | some l => !l.isEmpty
  | none => false

deriving instance DecidableEq for Except

/-! ## Base field mappers (`base_generator.py`) -/

/-- A converted Kubernetes service port as produced by
`_convert_service_ports`. -/
structure ServicePort where
  name : String
  port : Int
  targetPort : Int
  protocol : String
deriving DecidableEq, Repr

/-- `BaseGenerator._convert_service_ports` (`base_generator.py:57-87`):
string entries must have at least two `:`-separated segments whose first two
segments parse as ints (the target stripped of a `/proto` suffix), else the
entry is skipped (`except Exception: continue`); dict entries default
`published` and `target` to 80 and upper-case a `protocol` defaulting to
`'tcp'`. -/
def convert_service_ports (ports : List PortEntry) : List ServicePort :=
  ports.filterMap fun p =>
    match p with
    | .str s =>
      let parts := pySplit s ':'
      if parts.length < 2 then none
      else
        match pyInt? (parts.headD ""), pyInt? ((pySplit (parts.getD 1 "") '/').headD "") with
        | some source, some target =>
          some { name := "port-" ++ toString source, port := source,
                 targetPort := target, protocol := "TCP" }
        | _, _ => none
    | .dict published target protocol =>
      let p := published.getD 80
      some { name := "port-" ++ toString p, port := p,
             targetPort := target.getD 80, protocol := pyUpper (protocol.getD "tcp") }

example : convert_service_ports [.str "8080:80", .str "bad", .str "80:80/udp"] =
    [{ name := "port-8080", port := 8080, targetPort := 80, protocol := "TCP" },
     { name := "port-80", port := 80, targetPort := 80, protocol := "TCP" }] := by decide

example : convert_service_ports [.dict none none none] =
    [{ name := "port-80", port := 80, targetPort := 80, protocol := "TCP" }] := by decide

/-! ## Service generator (`service_generator.py`) -/

/-- A generated Service manifest.  Every Service built by
`ServiceGenerator` carries exactly the labels `{app, component}` and a
selector with the same two keys, so both are modelled by their two
values. -/
structure Service where
  name : String
  ns : String
  labelApp : String
  labelComponent : String
  type : String
  ports : List ServicePort
  selectorApp : String
  selectorComponent : String
deriving DecidableEq, Repr

/-- `ServiceGenerator._is_external_port` (`service_generator.py:187-191`):
a string containing `:`, or a dict whose `published` value is truthy
(`bool(port.get('published'))`, so an explicit `published: 0` is falsy). -/
def is_external_port : PortEntry → Bool
  | .str s => pyContains s ':'
  | .dict published _ _ =>
    match published with
    | some v => v != 0
    | none => false

/-- `ServiceGenerator.needs_service` (`service_generator.py:193-195`):
`bool(config.get('ports') or config.get('expose'))`.  Sidecar dicts carry no
`expose` key, so for them only `ports` decides. -/
def needs_service (ports : Option (List PortEntry)) (expose : Option (List ExposeEntry)) :
    Bool :=
  listTruthy ports || listTruthy expose

/-- `ServiceGenerator._generate_sidecar_services`
(`service_generator.py:123-185`): a ClusterIP service exposing all converted
ports under index-derived names `port-{i}`, plus a LoadBalancer variant with
names `lb-port-{i}` iff any raw port entry is externally published. -/
def generate_sidecar_services (ns app_name sidecar_name : String)
    (config : SidecarConfig) : List Service :=
  let service_name := app_name ++ "-" ++ sidecar_name
  if listTruthy config.ports then
    let raw := config.ports.getD []
    let ports := convert_service_ports raw
    let clusterIp : Service :=
      { name := service_name, ns := ns, labelApp := app_name,
        labelComponent := "sidecar-" ++ sidecar_name, type := "ClusterIP",
        ports := ports.enum.map fun (i, p) =>
          { name := "port-" ++ toString i, port := p.port,
            targetPort := p.targetPort, protocol := p.protocol },
        selectorApp := app_name, selectorComponent := "sidecar-" ++ sidecar_name }
    if raw.any is_external_port then
      [clusterIp,
       { name := service_name ++ "-lb", ns := ns, labelApp := app_name,
         labelComponent := "sidecar-" ++ sidecar_name, type := "LoadBalancer",
         ports := ports.enum.map fun (i, p) =>
           { name := "lb-port-" ++ toString i, port := p.port,
             targetPort := p.targetPort, protocol := p.protocol },
         selectorApp := app_name, selectorComponent := "sidecar-" ++ sidecar_name }]
    else [clusterIp]
  else []

/-- The default ClusterIP Service of `ServiceGenerator.generate`, built from
the first converted service port with the fixed port name `"default"`. -/
def defaultService (ns name : String) (p : ServicePort) : Service :=
  { name := name, ns := ns, labelApp := name, labelComponent := "main",
    type := "ClusterIP",
    ports := [{ name := "default", port := p.port, targetPort := p.targetPort,
                protocol := p.protocol }],
    selectorApp := name, selectorComponent := "main" }

/-- The `-lb` LoadBalancer Service of `ServiceGenerator.generate`, built from
the second converted service port with the fixed port name `"lb-https"`. -/
def lbService (ns name : String) (p : ServicePort) : Service :=
  { name := name ++ "-lb", ns := ns, labelApp := name, labelComponent := "main",
    type := "LoadBalancer",
    ports := [{ name := "lb-https", port := p.port, targetPort := p.targetPort,
                protocol := p.protocol }],
    selectorApp := name, selectorComponent := "main" }

/-- The `-ingress` ClusterIP Service of `ServiceGenerator.generate`, with the
fixed single port 80→80 named `"ingress-http"`. -/
def ingressService (ns name : String) : Service :=
  { name := name ++ "-ingress", ns := ns, labelApp := name,
    labelComponent := "main", type := "ClusterIP",
    ports := [{ name := "ingress-http", port := 80, targetPort := 80,
                protocol := "TCP" }],
    selectorApp := name, selectorComponent := "main" }

/-- `ServiceGenerator.generate` (`service_generator.py:10-121`).  The Python
list is built in source order: default service (if `ports` truthy), sidecar
services, `-lb` service (if more than one raw `ports` entry), `-ingress`
service (if `expose` truthy).  Indexing the converted-port list out of range
(`[0]` when no entry converts, `[1]` when fewer than two convert) raises an
uncaught `IndexError`, modelled as `Except.error`. -/
def service_generate (ns name : String) (config : AppConfig) :
    Except String (List Service) := do
  let cps := convert_service_ports (config.ports.getD [])
  let s1 ←
    if listTruthy config.ports then
      match cps.head? with
      | some p => pure [defaultService ns name p]
      | none => Except.error "IndexError: list index out of range"
    else pure []
  let sidecarSvcs := config.sidecars.flatMap fun (sn, sc) =>
    if needs_service sc.ports none then generate_sidecar_services ns name sn sc
    else []
  let s2 ←
    if listTruthy config.ports && decide (1 < (config.ports.getD []).length) then
      match cps.get? 1 with
      | some p => pure [lbService ns name p]
      | none => Except.error "IndexError: list index out of range"
    else pure []
  let s3 := if listTruthy config.expose then [ingressService ns name] else []
  pure (s1 ++ sidecarSvcs ++ s2 ++ s3)

/-- The `test_service_types` scenario of `tests/test_generators.py`. -/
example :
    service_generate "default" "whoami"
      { image := "traefik/whoami:latest",
        ports := some [.str "8080:80", .str "8443:443"],
        expose := some [.dict [("example.com", .dict none none (some 80) none)]] } =
    .ok [defaultService "default" "whoami"
           { name := "port-8080", port := 8080, targetPort := 80, protocol := "TCP" },
         lbService "default" "whoami"
           { name := "port-8443", port := 8443, targetPort := 443, protocol := "TCP" },
         ingressService "default" "whoami"] := by decide

/-- Malformed single entry: `_convert_service_ports` skips it and the
default-service block indexes an empty list. -/
example :
    service_generate "default" "whoami"
      { image := "i", ports := some [.str "bad"] } =
    .error "IndexError: list index out of range" := by decide

/-! ## Volume generator (`volume_generator.py`) -/

/-- A pod-level volume source: configMap, hostPath (with fixed
`type: Directory`) or persistentVolumeClaim. -/
inductive VolumeSource where
  | configMap (name : String)
  | hostPath (path : String)
  | pvc (claimName : String)
deriving DecidableEq, Repr

/-- A pod-level volume definition. -/
structure KVolume where
  name : String
  source : VolumeSource
deriving DecidableEq, Repr

/-- The positional-`volumes` half of
`VolumeGenerator._generate_container_volumes` (`volume_generator.py:57-87`):
string entries with at least two `:`-separated segments become a volume
named `"vol-{owner}-{i}"`, a `hostPath` when the source segment starts with
`/` and a PVC reference otherwise; other entries are skipped (the index
still advances, `enumerate`). -/
def positional_volumes (name : String) : Nat → List VolumeEntry → List KVolume
  | _, [] => []
  | i, .other :: t => positional_volumes name (i + 1) t
  | i, .str s :: t =>
    let parts := pySplit s ':'
    let rest := positional_volumes name (i + 1) t
    if parts.length < 2 then rest
    else
      let host_path := parts.headD ""
      let volume_name := "vol-" ++ name ++ "-" ++ toString i
      (if pyStartsWith host_path "/" then
        { name := volume_name, source := .hostPath host_path }
      else
        { name := volume_name, source := .pvc host_path }) :: rest

/-- The `volumesFrom` half of
`VolumeGenerator._generate_container_volumes` (`volume_generator.py:45-55`):
each `config` entry becomes a `configMap` volume named
`"config-{configName}"`. -/
def volumes_from_volumes (vf : List VolumesFromEntry) : List KVolume :=
  vf.filterMap fun v =>
    match v with
    | .config n _ => some { name := "config-" ++ n, source := .configMap ("config-" ++ n) }
    | .other => none

/-- `VolumeGenerator._generate_container_volumes`
(`volume_generator.py:41-87`): `volumesFrom`-backed configMap volumes first,
then positional volumes. -/
def generate_container_volumes (name : String) (config : SidecarConfig) : List KVolume :=
  (match config.volumesFrom with
   | some vf => volumes_from_volumes vf
   | none => []) ++
  (match config.volumes with
   | some vs => positional_volumes name 0 vs
   | none => [])

/-- The deduplication loop at the end of `VolumeGenerator.generate_volumes`
(`volume_generator.py:31-39`): keep the first occurrence of each volume
name. -/
def dedupByName (seen : List String) : List KVolume → List KVolume
  | [] => []
  | v :: t =>
    if seen.contains v.name then dedupByName seen t
    else v :: dedupByName (v.name :: seen) t

/-- The volume-inheritance step at `volume_generator.py:24-26`: when the app
declares `volumes` (key present) and the sidecar does not, the app's list is
written into the sidecar's dict (`sidecar_config['volumes'] =
config['volumes']`). -/
def inherit_volumes (config : AppConfig) (sc : SidecarConfig) : SidecarConfig :=
  if config.volumes.isSome && sc.volumes.isNone then { sc with volumes := config.volumes }
  else sc

/-- `VolumeGenerator.generate_volumes` (`volume_generator.py:6-39`),
including its side effect: each loop iteration first applies
`inherit_volumes` to the sidecar's dict (a mutation of the parsed model) and
then generates that sidecar's volumes; iterations are independent, so the
loop is two maps.  The returned pair is the deduplicated volume list
together with the post-call state of the app config (state passing makes
the Python mutation explicit). -/
def generate_volumes_full (name : String) (config : AppConfig) :
    List KVolume × AppConfig :=
  (dedupByName []
     (generate_container_volumes name config.ctr ++
      (config.sidecars.map fun p =>
        generate_container_volumes (name ++ "-" ++ p.1)
          (inherit_volumes config p.2)).flatten),
   { config with
     sidecars := config.sidecars.map fun p => (p.1, inherit_volumes config p.2) })

/-- The volume list returned by `VolumeGenerator.generate_volumes`. -/
def generate_volumes (name : String) (config : AppConfig) : List KVolume :=
  (generate_volumes_full name config).1

/-- `VolumeGenerator.generate_pvc` (`volume_generator.py:89-106`). -/
structure PvcRes where
  name : String
  ns : String
  storage : String
deriving DecidableEq, Repr

/-- `VolumeGenerator.generate_pvc` (`volume_generator.py:89-106`): a PVC
named after the top-level volume, storage request
`config.get('size', '1Gi')`. -/
def generate_pvc (ns name : String) (config : VolumeSpec) : PvcRes :=
  { name := name, ns := ns, storage := config.size.getD "1Gi" }

/-! ## Deployment generator (`deployment_generator.py`) -/

/-- A container volume mount. -/
structure VolumeMount where
  name : String
  mountPath : String
deriving DecidableEq, Repr

/-- A generated container (only the fields the claims mention: container
`ports`, `env` and `envFrom` are omitted). -/
structure Container where
  name : String
  image : String
  volumeMounts : List VolumeMount
deriving DecidableEq, Repr

/-- A generated Deployment manifest (label/selector is the single pair
`app: {name}` on both the selector and the pod template). -/
structure DeploymentRes where
  name : String
  ns : String
  replicas : Int
  containers : List Container
  volumes : List KVolume
deriving DecidableEq, Repr

/-- A generated ConfigMap manifest. -/
structure ConfigMapRes where
  name : String
  ns : String
  data : List (String × String)
deriving DecidableEq, Repr

/-- `DeploymentGenerator._convert_volume_mounts`
(`deployment_generator.py:94-107`): string entries with at least two
`:`-separated segments become a mount named `"vol-{name}-{i}"` at the second
segment (the same naming convention as the volume generator). -/
def convert_volume_mounts (name : String) : Nat → List VolumeEntry → List VolumeMount
  | _, [] => []
  | i, .other :: t => convert_volume_mounts name (i + 1) t
  | i, .str s :: t =>
    let parts := pySplit s ':'
    let rest := convert_volume_mounts name (i + 1) t
    if parts.length < 2 then rest
    else
      { name := "vol-" ++ name ++ "-" ++ toString i,
        mountPath := parts.getD 1 "" } :: rest

/-- `DeploymentGenerator._convert_volumes_from`
(`deployment_generator.py:150-165`): each `config` entry becomes a mount
named `"config-{configName}"` at `mountPath` or the default
`"/config/{configName}"`.  (The `app_config` parameter of the Python
function is unused and therefore not modelled.) -/
def convert_volumes_from (vf : List VolumesFromEntry) : List VolumeMount :=
  vf.filterMap fun v =>
    match v with
    | .config n mp =>
      some { name := "config-" ++ n, mountPath := mp.getD ("/config/" ++ n) }
    | .other => none

/-- `DeploymentGenerator._create_container`
(`deployment_generator.py:109-133`), restricted to the modelled fields:
mounts from positional `volumes` first, then mounts from `volumesFrom`. -/
def create_container (name : String) (config : SidecarConfig) : Container :=
  { name := name, image := config.image,
    volumeMounts :=
      convert_volume_mounts name 0 (config.volumes.getD []) ++
      (match config.volumesFrom with
       | some vf => convert_volumes_from vf
       | none => []) }

/-- `DeploymentGenerator._merge_sidecar_config`
(`deployment_generator.py:135-148`): a copy of the sidecar dict inheriting
`volumes` and `volumesFrom` from the app when the sidecar does not set them
(of the inheritable fields `volumes`, `networks`, `env_file`, `volumesFrom`
only the first and last are ever read by modelled code). -/
def merge_sidecar_config (app : AppConfig) (sc : SidecarConfig) : SidecarConfig :=
  { sc with
    volumes := sc.volumes <|> app.volumes,
    volumesFrom := sc.volumesFrom <|> app.volumesFrom }

/-- `DeploymentGenerator.generate` (`deployment_generator.py:15-92`): one
ConfigMap per non-external entry of the top-level `configs` mapping
(`compose_config` is always the full parsed model in the pipeline, so the
`if compose_config and 'configs' in compose_config` guard is always taken),
then one Deployment whose containers are the main container followed by one
container per sidecar (built on the merged config), with pod volumes from
`generate_volumes`. -/
def deployment_generate (ns name : String) (config : AppConfig)
    (configs : List (String × ConfigSpec)) :
    List DeploymentRes × List ConfigMapRes :=
  let configmaps := configs.filterMap fun (config_name, config_data) =>
    if config_data.external then none
    else some { name := "config-" ++ config_name, ns := ns,
                data := config_data.data : ConfigMapRes }
  let containers :=
    create_container name config.ctr ::
    config.sidecars.map fun (sidecar_name, sc) =>
      create_container (name ++ "-" ++ sidecar_name) (merge_sidecar_config config sc)
  let deployment : DeploymentRes :=
    { name := name, ns := ns, replicas := config.replicas.getD 1,
      containers := containers, volumes := generate_volumes name config }
  ([deployment], configmaps)

/-- The inheritance example of §8 of the spec: a sidecar declaring no
`volumes` under an app declaring `volumes: ["/host/path:/container/path"]`
shows a hostPath volume mounted in the sidecar's container. -/
example :
    (deployment_generate "default" "whoami"
      { image := "i", volumes := some [.str "/host/path:/container/path"],
        sidecars := [("logger", { image := "j" })] } []).1 =
    [{ name := "whoami", ns := "default", replicas := 1,
       containers :=
         [{ name := "whoami", image := "i",
            volumeMounts := [{ name := "vol-whoami-0", mountPath := "/container/path" }] },
          { name := "whoami-logger", image := "j",
            volumeMounts := [{ name := "vol-whoami-logger-0", mountPath := "/container/path" }] }],
       volumes :=
         [{ name := "vol-whoami-0", source := .hostPath "/host/path" },
          { name := "vol-whoami-logger-0", source := .hostPath "/host/path" }] }] := by
  decide

/-! ## Ingress generator (`ingress_generator.py`) -/

/-- One Ingress rule: each accepted `expose` entry becomes one rule with one
HTTP path of fixed `pathType: Prefix` backing the app's Service by name and
numeric port. -/
structure IngressRule where
  host : String
  path : String
  serviceName : String
  portNumber : Int
deriving DecidableEq, Repr

/-- A generated Ingress manifest; `ingressClassName = none` models the field
being left off (the code adds it only `if ingress_class_name:`, so an empty
string is dropped). -/
structure IngressRes where
  name : String
  ns : String
  ingressClassName : Option String
  rules : List IngressRule
deriving DecidableEq, Repr

/-- The loop variables of `IngressGenerator.generate`: the accumulated
rules, the running `ingress_class_name`, and the last values assigned to the
`host` / `path` / `service_port` locals (`none` while still unassigned —
using them then is the `NameError` the bare `except` swallows). -/
structure IngLoopState where
  rules : List IngressRule
  icn : String
  vars : Option (String × String × Int)
deriving DecidableEq, Repr

/-- The `urlparse`-based part of the string branch of
`IngressGenerator.generate` (`ingress_generator.py:19-30`), for a URL that
starts with `http://` or `https://`: netloc runs to the first `/`, `?` or
`#`; the host drops a `:port` suffix; the path is everything from the end of
the netloc up to `?` or `#`, defaulting to `"/"` (`parsed.path or '/'`);
the scheme implies the service port (80/443). -/
def parseExposeUrl (s : String) : String × String × Int :=
  let scheme := if pyStartsWith s "https://" then "https" else "http"
  let rest := (s.data.drop (scheme.length + 3))
  let netloc := rest.takeWhile fun c => c ≠ '/' && c ≠ '?' && c ≠ '#'
  let host0 := netloc.asString
  let host := if pyContains host0 ':' then (pySplit host0 ':').headD "" else host0
  let path0 := ((rest.drop netloc.length).takeWhile fun c => c ≠ '?' && c ≠ '#').asString
  let path := if path0 = "" then "/" else path0
  (host, path, if scheme = "http" then 80 else 443)

example : parseExposeUrl "http://example.com:8080/app" = ("example.com", "/app", 80) := by
  decide
example : parseExposeUrl "https://example.com" = ("example.com", "/", 443) := by decide

/-- One iteration of the `for domain, settings in expose.items()` inner loop
of `IngressGenerator.generate` (`ingress_generator.py:38-48`): a dict-valued
settings assigns the `host` / `path` / `service_port` locals (trailing `:`
stripped from the host, path defaulting to `"/"`, port to 80) and, when it
carries `ingressClassName`, overwrites the running class name; any other
value is skipped (`continue`). -/
def expose_key_step (acc : Option (String × String × Int) × String)
    (kv : String × SettingsVal) : Option (String × String × Int) × String :=
  match kv.2 with
  | .dict _ path port icnOpt =>
    (some (pyRstrip kv.1 ':', path.getD "/", port.getD 80),
     match icnOpt with
     | some v => v
     | none => acc.2)
  | .other => acc

/-- One iteration of the `for expose in config['expose']` loop of
`IngressGenerator.generate` (`ingress_generator.py:17-70`).  String entries
not starting with `http(s)://` are skipped; a mapping entry updates the
`host`/`path`/`service_port` locals once per dict-valued value (so the last
key wins) and updates `ingress_class_name` whenever such a value carries
one; the `rules.append` after the inner loop uses whatever the locals hold —
stale values from an earlier entry if this entry assigned none, and a
`NameError` (caught, entry skipped) if they were never assigned. -/
def ingress_step (name : String) (st : IngLoopState) : ExposeEntry → IngLoopState
  | .str s =>
    if pyStartsWith s "http://" || pyStartsWith s "https://" then
      let (host, path, service_port) := parseExposeUrl s
      { rules := st.rules ++
          [{ host := host, path := path, serviceName := name, portNumber := service_port }],
        icn := st.icn, vars := some (host, path, service_port) }
    else st
  | .dict entries =>
    if entries.isEmpty then st
    else
      let folded := entries.foldl expose_key_step (st.vars, st.icn)
      match folded.1 with
      | none => { st with icn := folded.2 }
      | some (host, path, service_port) =>
        { rules := st.rules ++
            [{ host := host, path := path, serviceName := name, portNumber := service_port }],
          icn := folded.2, vars := some (host, path, service_port) }
  | .other => st

/-- `IngressGenerator.generate` (`ingress_generator.py:7-90`): `None` when
`expose` is absent; otherwise fold the entries, return `None` when no rule
was accepted, and attach `ingressClassName` only when the running value is
truthy.  (The `service` parameter of the Python method is unused and not
modelled.) -/
def ingress_generate (ns name : String) (config : AppConfig) : Option IngressRes :=
  match config.expose with
  | none => none
  | some es =>
    let st := es.foldl (ingress_step name) { rules := [], icn := "traefik", vars := none }
    if st.rules.isEmpty then none
    else some { name := name, ns := ns,
                ingressClassName := if st.icn = "" then none else some st.icn,
                rules := st.rules }

/-- The `test_ingress_generation` scenario of `tests/test_generators.py`. -/
example :
    ingress_generate "default" "whoami"
      { image := "i",
        expose := some [.dict [("magic-127-0-0-1.nip.io",
          .dict (some "http") none (some 80) (some "traefik"))]] } =
    some { name := "whoami", ns := "default", ingressClassName := some "traefik",
           rules := [{ host := "magic-127-0-0-1.nip.io", path := "/",
                       serviceName := "whoami", portNumber := 80 }] } := by decide

/-! ## Orchestrating generator (`kube_generator.py`) -/

/-- The pre-filter resource accumulator of
`KubeResourceGenerator.generate_all` (the dict built at
`kube_generator.py:35-41`). -/
structure GenResources where
  configmaps : List ConfigMapRes
  pvcs : List PvcRes
  deployments : List DeploymentRes
  services : List Service
  ingress : List IngressRes
deriving DecidableEq, Repr

/-- The per-app loop of `KubeResourceGenerator.generate_all`
(`kube_generator.py:48-74`), returning the accumulated deployments,
configmaps, services and ingress in app order.  Per app: deployment
generation always runs; service generation runs iff `needs_service`;
ingress generation runs iff the app has an `expose` key and a generated
Service carries the label `component: main` (the `service_for_ingress`
pick).  A service-generation error aborts the whole pass. -/
def generate_apps (ns : String) (configs : List (String × ConfigSpec)) :
    List (String × AppConfig) →
    Except String (List DeploymentRes × List ConfigMapRes × List Service × List IngressRes)
  | [] => .ok ([], [], [], [])
  | (app_name, app_config) :: rest => do
    let (deps, cms) := deployment_generate ns app_name app_config configs
    let (svcs, ings) ←
      if needs_service app_config.ports app_config.expose then do
        let services ← service_generate ns app_name app_config
        let service_for_ingress := services.find? fun s => s.labelComponent == "main"
        let ings :=
          if app_config.expose.isSome && service_for_ingress.isSome then
            match ingress_generate ns app_name app_config with
            | some ing => [ing]
            | none => []
          else []
        pure (services, ings)
      else pure ([], [])
    let (ds, cs, ss, is2) ← generate_apps ns configs rest
    pure (deps ++ ds, cms ++ cs, svcs ++ ss, ings ++ is2)

/-- `KubeResourceGenerator.generate_all` (`kube_generator.py:25-77`) before
the final empty-kind filter: PVCs for every top-level volume first, then the
per-app resources. -/
def generate_all_raw (ns : String) (m : ComposeModel) : Except String GenResources := do
  let pvcs := m.volumes.map fun (volume_name, volume_config) =>
    generate_pvc ns volume_name volume_config
  let (ds, cs, ss, ings) ← generate_apps ns m.configs m.apps
  pure { configmaps := cs, pvcs := pvcs, deployments := ds, services := ss,
         ingress := ings }

/-! ## Resource manager (`resource_manager.py`)

The cluster client is consumed as an abstract capability (read / create /
patch / delete by kind+name+namespace).  For `apply_resources` the cluster
is modelled as the set of (kind, name) pairs present, with deterministic
read-by-membership and infallible create/patch — the round-trip claim only
exercises found / not-found responses.  For `delete_resources` an oracle
supplies each delete call's outcome so that non-404 API errors can be
modelled. -/

/-- The resource-kind tags a `ResourceBundle` maps to manifest lists.  In
`apply_resources` each tag dispatches to its typed Kubernetes client call;
the five tags cover every branch. -/
inductive Kind where
  | configmaps
  | pvcs
  | services
  | deployments
  | ingress
deriving DecidableEq, Repr

/-- The bundle-key string of a kind (used in wrapped error messages). -/
def Kind.tag : Kind → String
  | .configmaps => "configmaps"
  | .pvcs => "pvcs"
  | .services => "services"
  | .deployments => "deployments"
  | .ingress => "ingress"

/-- A manifest as seen by the resource manager: only
`resource['metadata']['name']` is ever read, the body is passed through
opaquely. -/
structure Manifest where
  name : String
deriving DecidableEq, Repr

/-- A resource bundle as consumed by the resource manager: kind tags to
manifest lists, in dict insertion order. -/
abbrev Bundle : Type := List (Kind × List Manifest)

/-- A mutating cluster call issued by `apply_resources` (reads are implicit
in the create-or-patch decision). -/
inductive ApplyCall where
  | create (k : Kind) (name : String)
  | patch (k : Kind) (name : String)
deriving DecidableEq, Repr

/-- The cluster contents: the (kind, name) pairs that currently exist. -/
abbrev Cluster : Type := List (Kind × String)

/-- The inner `for resource in resource_list` loop of
`ResourceManager.apply_resources` for one kind: read the target by name; on
success patch (cluster unchanged), on not-found create (the create makes the
target visible to later reads). -/
def apply_kind (k : Kind) (ms : List Manifest) (cluster : Cluster) :
    Cluster × List ApplyCall :=
  match ms with
  | [] => (cluster, [])
  | m :: t =>
    if cluster.contains (k, m.name) then
      let r := apply_kind k t cluster
      (r.1, .patch k m.name :: r.2)
    else
      let r := apply_kind k t ((k, m.name) :: cluster)
      (r.1, .create k m.name :: r.2)

/-- `ResourceManager.apply_resources` (`resource_manager.py:69-162`): for
each kind in bundle order and each manifest therein, patch-or-create.
Returns the final cluster and the calls issued in order. -/
def apply_resources (bundle : Bundle) (cluster : Cluster) : Cluster × List ApplyCall :=
  match bundle with
  | [] => (cluster, [])
  | (k, ms) :: rest =>
    let step := apply_kind k ms cluster
    let next := apply_resources rest step.1
    (next.1, step.2 ++ next.2)

/-- The (kind, name) targets of a bundle, in bundle order. -/
def bundleTargets (bundle : Bundle) : List (Kind × String) :=
  bundle.flatMap fun (k, ms) => ms.map fun m => (k, m.name)

/-- The outcome of one `delete_namespaced_*` call: success, or an
`ApiException` with a status and rendered reason (`str(e)`). -/
inductive DeleteOutcome where
  | ok
  | apiError (status : Int) (reason : String)
deriving DecidableEq, Repr

/-- A delete oracle: the cluster's response to deleting (kind, name). -/
abbrev DeleteOracle : Type := Kind → String → DeleteOutcome

/-- The fixed deletion order of `ResourceManager.delete_resources`
(`resource_manager.py:171`). -/
def deleteOrder : List Kind := [.ingress, .deployments, .services, .configmaps, .pvcs]

/-- The inner `for resource in resources[resource_type]` loop of
`ResourceManager.delete_resources` (`resource_manager.py:177-207`): issue
one delete per manifest; a 404 response is swallowed, any other API error is
wrapped with kind and name and raised (aborting everything that follows).
Returns the calls issued and the error, if any. -/
def delete_kind (oracle : DeleteOracle) (k : Kind) :
    List Manifest → List (Kind × String) × Option String
  | [] => ([], none)
  | m :: t =>
    match oracle k m.name with
    | .ok =>
      let r := delete_kind oracle k t
      ((k, m.name) :: r.1, r.2)
    | .apiError status reason =>
      if status == 404 then
        let r := delete_kind oracle k t
        ((k, m.name) :: r.1, r.2)
      else
        ([(k, m.name)],
         some ("Failed to delete " ++ k.tag ++ " '" ++ m.name ++ "': " ++ reason))

/-- The `for resource_type in resource_types` loop of
`ResourceManager.delete_resources`: skip kinds missing from the bundle dict
(`if resource_type not in resources: continue`); a raised (wrapped) error
aborts the remaining kinds as well. -/
def delete_go (oracle : DeleteOracle) (bundle : Bundle) :
    List Kind → List (Kind × String) × Option String
  | [] => ([], none)
  | k :: ks =>
    match bundle.lookup k with
    | none => delete_go oracle bundle ks
    | some ms =>
      let r := delete_kind oracle k ms
      match r.2 with
      | some e => (r.1, some e)
      | none =>
        let next := delete_go oracle bundle ks
        (r.1 ++ next.1, next.2)

/-- `ResourceManager.delete_resources` (`resource_manager.py:164-207`):
iterate the fixed kind order `ingress → deployments → services → configmaps
→ pvcs`, deleting each present kind's manifests.  Returns the delete calls
issued in order and the error, if any. -/
def delete_resources (oracle : DeleteOracle) (bundle : Bundle) :
    List (Kind × String) × Option String :=
  delete_go oracle bundle deleteOrder

/-! ## Referential validator (`validators.py`) -/

/-- A referential-integrity violation, carrying the identifying context the
raised `ValueError` reports: the offending app, the sidecar when the
reference sits in one, and the offending name. -/
inductive Violation where
  | configMissing (sidecar : Option String) (app : String) (config : String)
  | configNotExternal (sidecar : Option String) (app : String) (config : String)
  | secretNotExternal (sidecar : Option String) (app : String) (secret : String)
deriving DecidableEq, Repr

/-- The `f"Sidecar '{name}' in "` message piece used by
`_validate_config_reference`. -/
def sidecarPiece : Option String → String
  | some s => "Sidecar '" ++ s ++ "' in "
  | none => ""

/-- The exact `ValueError` message each violation raises
(`validators.py:66-71`, `validators.py:103-109`, `validators.py:122-137`). -/
def Violation.message : Violation → String
  | .configMissing sc app c =>
    sidecarPiece sc ++ "App '" ++ app ++ "' references config '" ++ c ++
    "' which does not exist"
  | .configNotExternal sc app c =>
    sidecarPiece sc ++ "App '" ++ app ++ "' references config '" ++ c ++
    "' which is marked as external but not found in external configs"
  | .secretNotExternal none app s =>
    "App '" ++ app ++ "' references secret '" ++ s ++ "' which is not marked as external"
  | .secretNotExternal (some sc) app s =>
    "Sidecar '" ++ sc ++ "' in app '" ++ app ++ "' references secret '" ++ s ++
    "' which is not marked as external"

/-- `ComposeValidator._validate_config_reference` (`validators.py:111-137`):
error when the referenced config is not declared, or is declared external
yet missing from the external-configs set. -/
def validate_config_reference (config_name app_name : String)
    (configs : List (String × ConfigSpec)) (external_configs : List String)
    (sidecar_name : Option String) : Except Violation Unit :=
  match configs.lookup config_name with
  | none => .error (.configMissing sidecar_name app_name config_name)
  | some spec =>
    if spec.external && !(external_configs.contains config_name) then
      .error (.configNotExternal sidecar_name app_name config_name)
    else .ok ()

/-- Run a check over a list, aborting at the first error (the Python `for`
loop around a `raise`). -/
def checkEach {α : Type} (f : α → Except Violation Unit) : List α → Except Violation Unit
  | [] => .ok ()
  | x :: t => do
    f x
    checkEach f t

/-- The `volumesFrom` reference check shared by the app and sidecar loops
(`validators.py:51-56`, `validators.py:77-88`): entries with a `config` key
and a truthy name are checked, others skipped. -/
def checkVolumesFrom (app_name : String) (sidecar_name : Option String)
    (configs : List (String × ConfigSpec)) (external_configs : List String)
    (vf : List VolumesFromEntry) : Except Violation Unit :=
  checkEach
    (fun v =>
      match v with
      | .config n _ =>
        if n ≠ "" then
          validate_config_reference n app_name configs external_configs sidecar_name
        else .ok ()
      | .other => .ok ()) vf

/-- The `envFrom` reference check shared by the app and sidecar loops
(`validators.py:59-71`, `validators.py:91-109`): config references go
through `_validate_config_reference`, secret references must be in the
external-secrets set; falsy names are skipped. -/
def checkEnvFrom (app_name : String) (sidecar_name : Option String)
    (configs : List (String × ConfigSpec)) (external_configs external_secrets : List String)
    (ef : List EnvFromEntry) : Except Violation Unit :=
  checkEach
    (fun e =>
      match e with
      | .config n =>
        if n ≠ "" then
          validate_config_reference n app_name configs external_configs sidecar_name
        else .ok ()
      | .secret n =>
        if n ≠ "" && !(external_secrets.contains n) then
          .error (.secretNotExternal sidecar_name app_name n)
        else .ok ()
      | .other => .ok ()) ef

/-- The body of the `for sidecar_name, sidecar_config in sidecars.items()`
loop of `_validate_external_resources` (`validators.py:74-109`): the
sidecar's `volumesFrom` references, then its `envFrom` references. -/
def checkSidecar (app_name : String) (configs : List (String × ConfigSpec))
    (ec es : List String) (sc : String × SidecarConfig) : Except Violation Unit := do
  checkVolumesFrom app_name (some sc.1) configs ec (sc.2.volumesFrom.getD [])
  checkEnvFrom app_name (some sc.1) configs ec es (sc.2.envFrom.getD [])

/-- The body of the `for app_name, app_config in apps.items()` loop of
`_validate_external_resources` (`validators.py:49-109`): the app's
`volumesFrom` references, its `envFrom` references, then each sidecar. -/
def checkApp (configs : List (String × ConfigSpec)) (ec es : List String)
    (app : String × AppConfig) : Except Violation Unit := do
  checkVolumesFrom app.1 none configs ec (app.2.volumesFrom.getD [])
  checkEnvFrom app.1 none configs ec es (app.2.envFrom.getD [])
  checkEach (checkSidecar app.1 configs ec es) app.2.sidecars

/-- `ComposeValidator._validate_external_resources` (`validators.py:44-109`):
per app, check the app's `volumesFrom` then `envFrom`, then per sidecar the
sidecar's `volumesFrom` then `envFrom`; the first violation aborts with its
`ValueError`. -/
def validate_external_resources (m : ComposeModel)
    (external_configs external_secrets : List String) : Except Violation Unit :=
  checkEach (checkApp m.configs external_configs external_secrets) m.apps

/-! ## Claim-side characterizations

The definitions below restate, in the claims' own terms, what the code is
asserted to do; the claim theorems connect them to the embedded code. -/

/-- The delete calls a bundle should produce: grouped by kind in the fixed
order `ingress, deployments, services, configmaps, pvcs`, each kind's
manifests in bundle order, independent of the bundle's own key order. -/
def canonicalDeleteCalls (bundle : Bundle) : List (Kind × String) :=
  deleteOrder.flatMap fun k =>
    ((bundle.lookup k).getD []).map fun m => (k, m.name)

/-- The claimed behaviour of a delete pass over a fixed call sequence: issue
each call in order, swallow a 404 response, and on any other API error stop
with the kind- and name-wrapped message, keeping the calls already made. -/
def deleteTrace (oracle : DeleteOracle) :
    List (Kind × String) → List (Kind × String) × Option String
  | [] => ([], none)
  | (k, n) :: t =>
    match oracle k n with
    | .ok =>
      let r := deleteTrace oracle t
      ((k, n) :: r.1, r.2)
    | .apiError status reason =>
      if status == 404 then
        let r := deleteTrace oracle t
        ((k, n) :: r.1, r.2)
      else
        ([(k, n)], some ("Failed to delete " ++ k.tag ++ " '" ++ n ++ "': " ++ reason))

/-- A delete outcome that does not abort the pass (success or 404). -/
def DeleteOutcome.benign : DeleteOutcome → Prop
  | .ok => True
  | .apiError status _ => status = 404

instance : DecidablePred DeleteOutcome.benign := fun o => by
  cases o with
  | ok => exact .isTrue trivial
  | apiError s _ => exact inferInstanceAs (Decidable (s = 404))

/-- The `ingressClassName` update one mapping key contributes: only a
dict-valued settings carrying the key overwrites the running value. -/
def icn_key_step (a : String) (kv : String × SettingsVal) : String :=
  match kv.2 with
  | .dict _ _ _ (some v) => v
  | _ => a

/-- The last `ingressClassName` value encountered while scanning one
`expose` entry (mapping entries scan their keys in order). -/
def icnStep (acc : String) : ExposeEntry → String
  | .dict entries => entries.foldl icn_key_step acc
  | _ => acc

/-- The last `ingressClassName` value encountered across the `expose`
entries in order, defaulting to `"traefik"`. -/
def lastIngressClassName (es : List ExposeEntry) : String :=
  es.foldl icnStep "traefik"

/-- Whether an `expose` entry specifies an `ingressClassName`. -/
def entrySpecifiesICN : ExposeEntry → Bool
  | .dict entries =>
    entries.any fun kv =>
      match kv.2 with
      | .dict _ _ _ (some _) => true
      | _ => false
  | _ => false

/-- A config/secret name referenced by an app or sidecar, with its context
(the names the validator considers: entries whose name is truthy). -/
inductive Ref where
  | config (sidecar : Option String) (app : String) (name : String)
  | secret (sidecar : Option String) (app : String) (name : String)
deriving DecidableEq, Repr

/-- The config names a `volumesFrom` list references. -/
def refsOfVolumesFrom (app : String) (sidecar : Option String)
    (vf : List VolumesFromEntry) : List Ref :=
  vf.filterMap fun v =>
    match v with
    | .config n _ => if n ≠ "" then some (.config sidecar app n) else none
    | .other => none

/-- The config and secret names an `envFrom` list references. -/
def refsOfEnvFrom (app : String) (sidecar : Option String)
    (ef : List EnvFromEntry) : List Ref :=
  ef.filterMap fun e =>
    match e with
    | .config n => if n ≠ "" then some (.config sidecar app n) else none
    | .secret n => if n ≠ "" then some (.secret sidecar app n) else none
    | .other => none

/-- The references one sidecar contributes: its `volumesFrom` then its
`envFrom`. -/
def sidecarRefs (app_name : String) (sc : String × SidecarConfig) : List Ref :=
  refsOfVolumesFrom app_name (some sc.1) (sc.2.volumesFrom.getD []) ++
  refsOfEnvFrom app_name (some sc.1) (sc.2.envFrom.getD [])

/-- The references one app contributes: its `volumesFrom`, its `envFrom`,
then each sidecar's. -/
def appRefs (app : String × AppConfig) : List Ref :=
  refsOfVolumesFrom app.1 none (app.2.volumesFrom.getD []) ++
  refsOfEnvFrom app.1 none (app.2.envFrom.getD []) ++
  app.2.sidecars.flatMap (sidecarRefs app.1)

/-- Every config/secret reference of the model, in validator iteration
order: per app its `volumesFrom` then `envFrom`, then per sidecar the
sidecar's `volumesFrom` then `envFrom`. -/
def collectRefs (m : ComposeModel) : List Ref :=
  m.apps.flatMap appRefs

/-- Whether one reference violates referential integrity, and which
violation it is: a config name absent from `configs`; a config declared
external but missing from the external-configs set; a secret name missing
from the external-secrets set. -/
def refViolation (configs : List (String × ConfigSpec))
    (external_configs external_secrets : List String) : Ref → Option Violation
  | .config sc app n =>
    match configs.lookup n with
    | none => some (.configMissing sc app n)
    | some spec =>
      if spec.external && !(external_configs.contains n) then
        some (.configNotExternal sc app n)
      else none
  | .secret sc app n =>
    if !(external_secrets.contains n) then some (.secretNotExternal sc app n)
    else none

/-- The violations of a model in validator iteration order. -/
def violationList (m : ComposeModel)
    (external_configs external_secrets : List String) : List Violation :=
  (collectRefs m).filterMap (refViolation m.configs external_configs external_secrets)

/-- Fail-fast reading of a violation list: ok when empty, otherwise the
first violation. -/
def firstViolation : List Violation → Except Violation Unit
  | [] => .ok ()
  | v :: _ => .error v

/-! ## Lemmas: the validator is fail-fast over the violation list -/

theorem firstViolation_append (l1 l2 : List Violation) :
    (firstViolation l1 >>= fun _ => firstViolation l2) = firstViolation (l1 ++ l2) := by
  cases l1 <;> rfl

theorem checkEach_eq {α : Type} {f : α → Except Violation Unit} {g : α → List Violation}
    (h : ∀ x, f x = firstViolation (g x)) :
    ∀ l, checkEach f l = firstViolation (l.flatMap g)
  | [] => rfl
  | x :: t => by
    show (f x >>= fun _ => checkEach f t) = _
    rw [h x, checkEach_eq h t, List.flatMap_cons, ← firstViolation_append]

theorem flatMap_toList {α γ : Type} (l : List α) (h : α → Option γ) :
    (l.flatMap fun v => (h v).toList) = l.filterMap h := by
  induction l with
  | nil => rfl
  | cons x t ih => cases hx : h x <;> simp [List.flatMap_cons, List.filterMap_cons, hx, ih]

theorem except_error_bind {ε α β : Type} (e : ε) (f : α → Except ε β) :
    (Except.error e >>= f) = Except.error e := rfl

theorem except_ok_bind {ε α β : Type} (a : α) (f : α → Except ε β) :
    (Except.ok a >>= f) = f a := rfl

theorem except_pure_bind {ε α β : Type} (a : α) (f : α → Except ε β) :
    ((pure a : Except ε α) >>= f) = f a := rfl

theorem except_pure_eq_ok {ε α : Type} (a : α) :
    (pure a : Except ε α) = Except.ok a := rfl

theorem validate_config_reference_eq (n app : String)
    (configs : List (String × ConfigSpec)) (ec es : List String) (sc : Option String) :
    validate_config_reference n app configs ec sc =
      firstViolation ((refViolation configs ec es (.config sc app n)).toList) := by
  cases h : configs.lookup n with
  | none => simp [validate_config_reference, refViolation, h, firstViolation]
  | some spec =>
    simp only [validate_config_reference, refViolation, h]
    split <;> rfl

theorem checkVolumesFrom_eq (app : String) (sc : Option String)
    (configs : List (String × ConfigSpec)) (ec es : List String)
    (vf : List VolumesFromEntry) :
    checkVolumesFrom app sc configs ec vf =
      firstViolation
        ((refsOfVolumesFrom app sc vf).filterMap (refViolation configs ec es)) := by
  induction vf with
  | nil => rfl
  | cons v t ih =>
    cases v with
    | other =>
      simpa [checkVolumesFrom, checkEach, refsOfVolumesFrom, List.filterMap_cons]
        using ih
    | config n mp =>
      by_cases hn : n = ""
      · simpa [checkVolumesFrom, checkEach, refsOfVolumesFrom, List.filterMap_cons, hn]
          using ih
      · cases hr : refViolation configs ec es (.config sc app n) with
        | none =>
          simpa [checkVolumesFrom, checkEach, refsOfVolumesFrom, List.filterMap_cons,
            hn, validate_config_reference_eq n app configs ec es sc, hr, firstViolation]
            using ih
        | some w =>
          simp [checkVolumesFrom, checkEach, refsOfVolumesFrom, List.filterMap_cons,
            hn, validate_config_reference_eq n app configs ec es sc, hr, firstViolation,
            except_error_bind]

theorem checkEnvFrom_eq (app : String) (sc : Option String)
    (configs : List (String × ConfigSpec)) (ec es : List String)
    (ef : List EnvFromEntry) :
    checkEnvFrom app sc configs ec es ef =
      firstViolation
        ((refsOfEnvFrom app sc ef).filterMap (refViolation configs ec es)) := by
  induction ef with
  | nil => rfl
  | cons e t ih =>
    cases e with
    | other =>
      simpa [checkEnvFrom, checkEach, refsOfEnvFrom, List.filterMap_cons] using ih
    | config n =>
      by_cases hn : n = ""
      · simpa [checkEnvFrom, checkEach, refsOfEnvFrom, List.filterMap_cons, hn] using ih
      · cases hr : refViolation configs ec es (.config sc app n) with
        | none =>
          simpa [checkEnvFrom, checkEach, refsOfEnvFrom, List.filterMap_cons, hn,
            validate_config_reference_eq n app configs ec es sc, hr, firstViolation]
            using ih
        | some w =>
          simp [checkEnvFrom, checkEach, refsOfEnvFrom, List.filterMap_cons, hn,
            validate_config_reference_eq n app configs ec es sc, hr, firstViolation,
            except_error_bind]
    | secret n =>
      by_cases hn : n = ""
      · simpa [checkEnvFrom, checkEach, refsOfEnvFrom, List.filterMap_cons, hn] using ih
      · by_cases hs : n ∈ es
        · simpa [checkEnvFrom, checkEach, refsOfEnvFrom, refViolation,
            List.filterMap_cons, hn, hs] using ih
        · simp [checkEnvFrom, checkEach, refsOfEnvFrom, refViolation,
            List.filterMap_cons, hn, hs, firstViolation, except_error_bind]

theorem filterMap_flatMap {α β γ : Type} (l : List α) (g : α → List β) (f : β → Option γ) :
    (l.flatMap g).filterMap f = l.flatMap fun a => (g a).filterMap f := by
  induction l with
  | nil => rfl
  | cons x t ih => simp [List.flatMap_cons, List.filterMap_append, ih]

theorem checkSidecar_eq (app_name : String) (configs : List (String × ConfigSpec))
    (ec es : List String) (sc : String × SidecarConfig) :
    checkSidecar app_name configs ec es sc =
      firstViolation ((sidecarRefs app_name sc).filterMap (refViolation configs ec es)) := by
  show (checkVolumesFrom app_name (some sc.1) configs ec (sc.2.volumesFrom.getD []) >>=
      fun _ => checkEnvFrom app_name (some sc.1) configs ec es (sc.2.envFrom.getD [])) = _
  rw [checkVolumesFrom_eq app_name (some sc.1) configs ec es,
    checkEnvFrom_eq app_name (some sc.1) configs ec es,
    firstViolation_append, sidecarRefs, List.filterMap_append]

theorem checkApp_eq (configs : List (String × ConfigSpec)) (ec es : List String)
    (app : String × AppConfig) :
    checkApp configs ec es app =
      firstViolation ((appRefs app).filterMap (refViolation configs ec es)) := by
  show (checkVolumesFrom app.1 none configs ec (app.2.volumesFrom.getD []) >>=
      fun _ => checkEnvFrom app.1 none configs ec es (app.2.envFrom.getD []) >>=
      fun _ => checkEach (checkSidecar app.1 configs ec es) app.2.sidecars) = _
  rw [checkEach_eq (fun sc => checkSidecar_eq app.1 configs ec es sc) app.2.sidecars,
    checkVolumesFrom_eq app.1 none configs ec es,
    checkEnvFrom_eq app.1 none configs ec es,
    firstViolation_append, firstViolation_append, appRefs,
    List.filterMap_append, List.filterMap_append,
    filterMap_flatMap, List.append_assoc]

theorem validate_external_resources_eq (m : ComposeModel) (ec es : List String) :
    validate_external_resources m ec es = firstViolation (violationList m ec es) := by
  rw [validate_external_resources,
    checkEach_eq (fun app => checkApp_eq m.configs ec es app) m.apps,
    violationList, collectRefs, filterMap_flatMap]

/-! ## Lemmas: the reconciler's delete pass -/

theorem deleteTrace_append (oracle : DeleteOracle) (a b : List (Kind × String)) :
    deleteTrace oracle (a ++ b) =
      match deleteTrace oracle a with
      | (calls, some e) => (calls, some e)
      | (calls, none) =>
        (calls ++ (deleteTrace oracle b).1, (deleteTrace oracle b).2) := by
  induction a with
  | nil => simp [deleteTrace]
  | cons c t ih =>
    obtain ⟨k, n⟩ := c
    cases h : deleteTrace oracle t with
    | mk calls err =>
      rw [h] at ih
      cases ho : oracle k n with
      | ok =>
        cases err with
        | none => simp [List.cons_append, deleteTrace, ho, ih, h]
        | some e => simp [List.cons_append, deleteTrace, ho, ih, h]
      | apiError status reason =>
        by_cases hs : status == 404
        · cases err with
          | none => simp [List.cons_append, deleteTrace, ho, hs, ih, h]
          | some e => simp [List.cons_append, deleteTrace, ho, hs, ih, h]
        · simp [deleteTrace, ho, hs]

theorem delete_kind_eq (oracle : DeleteOracle) (k : Kind) (ms : List Manifest) :
    delete_kind oracle k ms = deleteTrace oracle (ms.map fun m => (k, m.name)) := by
  induction ms with
  | nil => rfl
  | cons m t ih =>
    cases ho : oracle k m.name with
    | ok => simp [delete_kind, deleteTrace, ho, ih]
    | apiError status reason =>
      by_cases hs : status == 404
      · simp [delete_kind, deleteTrace, ho, hs, ih]
      · simp [delete_kind, deleteTrace, ho, hs]

theorem delete_go_eq (oracle : DeleteOracle) (bundle : Bundle) (ks : List Kind) :
    delete_go oracle bundle ks =
      deleteTrace oracle
        (ks.flatMap fun k => ((bundle.lookup k).getD []).map fun m => (k, m.name)) := by
  induction ks with
  | nil => rfl
  | cons k t ih =>
    cases hl : bundle.lookup k with
    | none => simp [delete_go, hl, ih]
    | some ms =>
      simp only [delete_go, hl, delete_kind_eq, List.flatMap_cons, Option.getD_some,
        deleteTrace_append, ih]
      cases h : deleteTrace oracle (ms.map fun m => (k, m.name)) with
      | mk calls err => cases err <;> simp

theorem delete_resources_eq (oracle : DeleteOracle) (bundle : Bundle) :
    delete_resources oracle bundle = deleteTrace oracle (canonicalDeleteCalls bundle) :=
  delete_go_eq oracle bundle deleteOrder

theorem deleteTrace_benign (oracle : DeleteOracle) (calls : List (Kind × String))
    (h : ∀ c ∈ calls, (oracle c.1 c.2).benign) :
    deleteTrace oracle calls = (calls, none) := by
  induction calls with
  | nil => rfl
  | cons c t ih =>
    obtain ⟨k, n⟩ := c
    have hc := h (k, n) (List.mem_cons_self _ _)
    have ht := fun x hx => h x (List.mem_cons_of_mem _ hx)
    cases ho : oracle k n with
    | ok => simp [deleteTrace, ho, ih ht]
    | apiError status reason =>
      rw [ho] at hc
      have : status = 404 := hc
      simp [deleteTrace, ho, this, ih ht]

theorem deleteTrace_abort (oracle : DeleteOracle) (l1 : List (Kind × String))
    (k : Kind) (n : String) (l2 : List (Kind × String)) (status : Int) (reason : String)
    (hben : ∀ c ∈ l1, (oracle c.1 c.2).benign)
    (ho : oracle k n = .apiError status reason) (hs : status ≠ 404) :
    deleteTrace oracle (l1 ++ (k, n) :: l2) =
      (l1 ++ [(k, n)],
       some ("Failed to delete " ++ k.tag ++ " '" ++ n ++ "': " ++ reason)) := by
  induction l1 with
  | nil => simp [deleteTrace, ho, hs]
  | cons c t ih =>
    obtain ⟨k1, n1⟩ := c
    have hc := hben (k1, n1) (List.mem_cons_self _ _)
    have ht := fun x hx => hben x (List.mem_cons_of_mem _ hx)
    cases ho1 : oracle k1 n1 with
    | ok => simp [deleteTrace, ho1, ih ht]
    | apiError s1 r1 =>
      rw [ho1] at hc
      have : s1 = 404 := hc
      simp [deleteTrace, ho1, this, ih ht]

/-! ## Lemmas: the reconciler's apply pass -/

theorem cluster_contains_iff (x : Kind × String) (c : Cluster) :
    c.contains x = true ↔ x ∈ c := by
  simp [List.contains]

theorem apply_kind_create (k : Kind) (ms : List Manifest) (c : Cluster)
    (habs : ∀ m ∈ ms, (k, m.name) ∉ c)
    (hnd : (ms.map fun m => (k, m.name)).Nodup) :
    apply_kind k ms c =
      ((ms.map fun m => (k, m.name)).reverse ++ c,
       ms.map fun m => .create k m.name) := by
  induction ms generalizing c with
  | nil => simp [apply_kind]
  | cons m t ih =>
    obtain ⟨hm, hndt⟩ := List.nodup_cons.mp hnd
    have hnotin : (k, m.name) ∉ c := habs m (List.mem_cons_self _ _)
    have habs2 : ∀ m2 ∈ t, (k, m2.name) ∉ (k, m.name) :: c := by
      intro m2 hm2
      rw [List.mem_cons]
      rintro (heq | hin)
      · have hmm : (k, m2.name) ∈ t.map fun m3 => (k, m3.name) :=
          List.mem_map_of_mem _ hm2
        rw [heq] at hmm
        exact hm hmm
      · exact habs m2 (List.mem_cons_of_mem _ hm2) hin
    simp [apply_kind, hnotin, ih _ habs2 hndt]

theorem apply_kind_patch (k : Kind) (ms : List Manifest) (c : Cluster)
    (hall : ∀ m ∈ ms, (k, m.name) ∈ c) :
    apply_kind k ms c = (c, ms.map fun m => .patch k m.name) := by
  induction ms with
  | nil => simp [apply_kind]
  | cons m t ih =>
    have hmem : (k, m.name) ∈ c := hall m (List.mem_cons_self _ _)
    simp [apply_kind, hmem,
      ih fun m2 hm2 => hall m2 (List.mem_cons_of_mem _ hm2)]

theorem apply_resources_create (bundle : Bundle) (c : Cluster)
    (habs : ∀ x ∈ bundleTargets bundle, x ∉ c)
    (hnd : (bundleTargets bundle).Nodup) :
    apply_resources bundle c =
      ((bundleTargets bundle).reverse ++ c,
       (bundleTargets bundle).map fun x => .create x.1 x.2) := by
  induction bundle generalizing c with
  | nil => simp [apply_resources, bundleTargets]
  | cons p rest ih =>
    obtain ⟨k, ms⟩ := p
    have htargets : bundleTargets ((k, ms) :: rest) =
        (ms.map fun m => (k, m.name)) ++ bundleTargets rest := by
      simp [bundleTargets]
    rw [htargets] at habs hnd ⊢
    obtain ⟨hnd1, hnd2, hdisj⟩ := List.nodup_append.mp hnd
    have h1 := apply_kind_create k ms c
      (fun m hm => habs _ (List.mem_append_left _ (List.mem_map_of_mem _ hm))) hnd1
    have habs2 : ∀ x ∈ bundleTargets rest, x ∉ (ms.map fun m => (k, m.name)).reverse ++ c := by
      intro x hx
      rw [List.mem_append, List.mem_reverse]
      rintro (hin | hin)
      · exact hdisj hin hx
      · exact habs x (List.mem_append_right _ hx) hin
    have h2 := ih ((ms.map fun m => (k, m.name)).reverse ++ c) habs2 hnd2
    simp [apply_resources, h1, h2, List.reverse_append]

theorem apply_resources_patch (bundle : Bundle) (c : Cluster)
    (hall : ∀ x ∈ bundleTargets bundle, x ∈ c) :
    apply_resources bundle c = (c, (bundleTargets bundle).map fun x => .patch x.1 x.2) := by
  induction bundle generalizing c with
  | nil => simp [apply_resources, bundleTargets]
  | cons p rest ih =>
    obtain ⟨k, ms⟩ := p
    have htargets : bundleTargets ((k, ms) :: rest) =
        (ms.map fun m => (k, m.name)) ++ bundleTargets rest := by
      simp [bundleTargets]
    rw [htargets] at hall ⊢
    have h1 := apply_kind_patch k ms c
      (fun m hm => hall _ (List.mem_append_left _ (List.mem_map_of_mem _ hm)))
    have h2 := ih c fun x hx => hall x (List.mem_append_right _ hx)
    simp [apply_resources, h1, h2]

/-! ## Lemmas: volume naming and mount/volume containment -/

theorem mem_of_contains {α : Type} [DecidableEq α] {x : α} {l : List α}
    (h : l.contains x = true) : x ∈ l := by simpa using h

theorem mounts_volumes_name_eq (N : String) :
    ∀ (i : Nat) (entries : List VolumeEntry),
      (convert_volume_mounts N i entries).map VolumeMount.name =
        (positional_volumes N i entries).map KVolume.name := by
  intro i entries
  induction entries generalizing i with
  | nil => rfl
  | cons e t ih =>
    cases e with
    | other => simpa [convert_volume_mounts, positional_volumes] using ih (i + 1)
    | str s =>
      by_cases hp : (pySplit s ':').length < 2
      · simpa [convert_volume_mounts, positional_volumes, hp] using ih (i + 1)
      · simp only [convert_volume_mounts, positional_volumes, if_neg hp, List.map_cons]
        refine congrArg₂ _ ?_ (ih (i + 1))
        split <;> rfl

theorem vf_names_eq (vf : List VolumesFromEntry) :
    (convert_volumes_from vf).map VolumeMount.name =
      (volumes_from_volumes vf).map KVolume.name := by
  induction vf with
  | nil => rfl
  | cons v t ih =>
    cases v with
    | other => simpa [convert_volumes_from, volumes_from_volumes] using ih
    | config n mp => simpa [convert_volumes_from, volumes_from_volumes] using ih

theorem mount_name_at_index (N : String) :
    ∀ (entries : List VolumeEntry) (j i : Nat) (s : String),
      entries.get? i = some (.str s) → 2 ≤ (pySplit s ':').length →
      ("vol-" ++ N ++ "-" ++ toString (j + i)) ∈
        (convert_volume_mounts N j entries).map VolumeMount.name := by
  intro entries
  induction entries with
  | nil => intro j i s h; simp at h
  | cons e t ih =>
    intro j i s hget hlen
    cases i with
    | zero =>
      rw [List.get?_cons_zero, Option.some_inj] at hget
      subst hget
      simp [convert_volume_mounts, Nat.not_lt.mpr hlen]
    | succ i2 =>
      rw [List.get?_cons_succ] at hget
      have hmem := ih (j + 1) i2 s hget hlen
      have harith : j + 1 + i2 = j + (i2 + 1) := by omega
      rw [harith] at hmem
      cases e with
      | other => simpa [convert_volume_mounts] using hmem
      | str s2 =>
        by_cases hp : (pySplit s2 ':').length < 2 <;>
          simp [convert_volume_mounts, hp, hmem]

theorem dedupByName_mem_name (n : String) :
    ∀ (l : List KVolume) (seen : List String), n ∉ seen →
      ((∃ v ∈ dedupByName seen l, v.name = n) ↔ ∃ v ∈ l, v.name = n) := by
  intro l
  induction l with
  | nil => intro seen _; simp [dedupByName]
  | cons v t ih =>
    intro seen hn
    by_cases hv : v.name ∈ seen
    · have hvn : v.name ≠ n := fun he => hn (he ▸ hv)
      rw [show dedupByName seen (v :: t) = dedupByName seen t by simp [dedupByName, hv]]
      rw [ih seen hn]
      constructor
      · rintro ⟨w, hw, hwn⟩
        exact ⟨w, List.mem_cons_of_mem _ hw, hwn⟩
      · rintro ⟨w, hw, hwn⟩
        rcases List.mem_cons.mp hw with he | hw2
        · exact absurd (he ▸ hwn) hvn
        · exact ⟨w, hw2, hwn⟩
    · rw [show dedupByName seen (v :: t) = v :: dedupByName (v.name :: seen) t by
        simp [dedupByName, hv]]
      by_cases hvn : v.name = n
      · constructor
        · intro _; exact ⟨v, List.mem_cons_self _ _, hvn⟩
        · intro _; exact ⟨v, List.mem_cons_self _ _, hvn⟩
      · have hn2 : n ∉ v.name :: seen := by
          intro hc
          rcases List.mem_cons.mp hc with he | he
          · exact hvn he.symm
          · exact hn he
        constructor
        · rintro ⟨w, hw, hwn⟩
          rcases List.mem_cons.mp hw with he | hw2
          · exact ⟨v, List.mem_cons_self _ _, he ▸ hwn⟩
          · obtain ⟨w2, hw2m, hwn2⟩ := (ih _ hn2).mp ⟨w, hw2, hwn⟩
            exact ⟨w2, List.mem_cons_of_mem _ hw2m, hwn2⟩
        · rintro ⟨w, hw, hwn⟩
          rcases List.mem_cons.mp hw with he | hw2
          · exact ⟨v, List.mem_cons_self _ _, he ▸ hwn⟩
          · obtain ⟨w2, hw2m, hwn2⟩ := (ih _ hn2).mpr ⟨w, hw2, hwn⟩
            exact ⟨w2, List.mem_cons_of_mem _ hw2m, hwn2⟩

theorem dedupByName_find (n : String) :
    ∀ (l : List KVolume) (seen : List String), n ∉ seen →
      (dedupByName seen l).find? (fun v => v.name == n) =
        l.find? (fun v => v.name == n) := by
  intro l
  induction l with
  | nil => intro seen _; rfl
  | cons v t ih =>
    intro seen hn
    by_cases hv : v.name ∈ seen
    · have hvn : (v.name == n) = false := by
        rw [beq_eq_false_iff_ne]
        exact fun he => hn (he ▸ hv)
      rw [show dedupByName seen (v :: t) = dedupByName seen t by simp [dedupByName, hv]]
      rw [List.find?_cons, hvn, ih seen hn]
    · rw [show dedupByName seen (v :: t) = v :: dedupByName (v.name :: seen) t by
        simp [dedupByName, hv]]
      by_cases hvn : v.name = n
      · rw [List.find?_cons, List.find?_cons]
        have hb : (v.name == n) = true := by simpa using hvn
        rw [hb]
      · have hvn2 : (v.name == n) = false := by
          rw [beq_eq_false_iff_ne]; exact hvn
        have hn2 : n ∉ v.name :: seen := by
          intro hc
          rcases List.mem_cons.mp hc with he | he
          · exact hvn he.symm
          · exact hn he
        rw [List.find?_cons, List.find?_cons, hvn2, ih _ hn2]

theorem inherit_volumes_eq_merged (config : AppConfig) (sc : SidecarConfig) :
    (inherit_volumes config sc).volumes = (merge_sidecar_config config sc).volumes := by
  cases hsc : sc.volumes <;> cases hcf : config.volumes <;>
    simp [inherit_volumes, merge_sidecar_config, hsc, hcf]

theorem inherit_volumes_volumesFrom (config : AppConfig) (sc : SidecarConfig) :
    (inherit_volumes config sc).volumesFrom = sc.volumesFrom := by
  by_cases h : config.volumes.isSome && sc.volumes.isNone <;> simp [inherit_volumes, h]

theorem volume_name_at_index (N : String) (entries : List VolumeEntry) (i : Nat)
    (s : String) (hget : entries.get? i = some (.str s))
    (hlen : 2 ≤ (pySplit s ':').length) :
    ("vol-" ++ N ++ "-" ++ toString i) ∈
      (positional_volumes N 0 entries).map KVolume.name := by
  have h := mount_name_at_index N entries 0 i s hget hlen
  rw [Nat.zero_add] at h
  rw [← mounts_volumes_name_eq]
  exact h

theorem positional_mount_in_gcv (cname : String) (vols : Option (List VolumeEntry))
    (mt : VolumeMount) (hmt : mt ∈ convert_volume_mounts cname 0 (vols.getD []))
    (cfg2 : SidecarConfig) (hv : cfg2.volumes = vols) :
    mt.name ∈ (generate_container_volumes cname cfg2).map KVolume.name := by
  have hname : mt.name ∈ (convert_volume_mounts cname 0 (vols.getD [])).map VolumeMount.name :=
    List.mem_map_of_mem _ hmt
  rw [mounts_volumes_name_eq] at hname
  cases vols with
  | none => simp [positional_volumes] at hname
  | some vs =>
    rw [Option.getD_some] at hname
    simp only [generate_container_volumes, hv, List.map_append]
    exact List.mem_append_right _ hname

theorem vf_mount_in_gcv (cname : String) (vf : List VolumesFromEntry)
    (mt : VolumeMount) (hmt : mt ∈ convert_volumes_from vf)
    (cfg2 : SidecarConfig) (hv : cfg2.volumesFrom = some vf) :
    mt.name ∈ (generate_container_volumes cname cfg2).map KVolume.name := by
  have hname : mt.name ∈ (convert_volumes_from vf).map VolumeMount.name :=
    List.mem_map_of_mem _ hmt
  rw [vf_names_eq] at hname
  simp only [generate_container_volumes, hv, List.map_append]
  exact List.mem_append_left _ hname

theorem deployment_mount_names (ns name : String) (config : AppConfig)
    (configs : List (String × ConfigSpec)) :
    ∀ dep ∈ (deployment_generate ns name config configs).1,
      ∀ c ∈ dep.containers, ∀ mt ∈ c.volumeMounts,
        ∃ v ∈ dep.volumes, v.name = mt.name := by
  intro dep hdep c hc mt hmt
  have hdep2 := hdep
  simp only [deployment_generate, List.mem_singleton] at hdep2
  subst hdep2
  show ∃ v ∈ generate_volumes name config, v.name = mt.name
  have hgv : generate_volumes name config =
      dedupByName []
        (generate_container_volumes name config.ctr ++
         (config.sidecars.map fun p =>
           generate_container_volumes (name ++ "-" ++ p.1)
             (inherit_volumes config p.2)).flatten) := rfl
  rw [hgv]
  rw [dedupByName_mem_name mt.name _ [] (by simp)]
  have hfromName :
      mt.name ∈ (generate_container_volumes name config.ctr ++
        (config.sidecars.map fun p =>
          generate_container_volumes (name ++ "-" ++ p.1)
            (inherit_volumes config p.2)).flatten).map KVolume.name →
      ∃ v ∈ generate_container_volumes name config.ctr ++
        (config.sidecars.map fun p =>
          generate_container_volumes (name ++ "-" ++ p.1)
            (inherit_volumes config p.2)).flatten, v.name = mt.name := by
    intro hmem
    obtain ⟨v, hv, hvn⟩ := List.mem_map.mp hmem
    exact ⟨v, hv, hvn⟩
  apply hfromName
  rw [List.map_append]
  rcases List.mem_cons.mp hc with hcmain | hcside
  · subst hcmain
    have hm2 : mt ∈ convert_volume_mounts name 0 (config.ctr.volumes.getD []) ++
        (match config.ctr.volumesFrom with
         | some vf => convert_volumes_from vf
         | none => []) := hmt
    rcases List.mem_append.mp hm2 with h1 | h2
    · exact List.mem_append_left _
        (positional_mount_in_gcv name config.ctr.volumes mt h1 config.ctr rfl)
    · cases hvf : config.ctr.volumesFrom with
      | none => rw [hvf] at h2; simp at h2
      | some vf =>
        rw [hvf] at h2
        exact List.mem_append_left _ (vf_mount_in_gcv name vf mt h2 config.ctr hvf)
  · obtain ⟨p, hp, hpc⟩ := List.mem_map.mp hcside
    have hinflat : ∀ x, x ∈ (generate_container_volumes (name ++ "-" ++ p.1)
          (inherit_volumes config p.2)).map KVolume.name →
        x ∈ ((config.sidecars.map fun q =>
          generate_container_volumes (name ++ "-" ++ q.1)
            (inherit_volumes config q.2)).flatten).map KVolume.name := by
      intro x hx
      obtain ⟨v, hv, hvn⟩ := List.mem_map.mp hx
      refine List.mem_map.mpr ⟨v, ?_, hvn⟩
      rw [List.mem_flatten]
      exact ⟨_, List.mem_map_of_mem _ hp, hv⟩
    have hm2 : mt ∈ convert_volume_mounts (name ++ "-" ++ p.1) 0
          ((merge_sidecar_config config p.2).volumes.getD []) ++
        (match (merge_sidecar_config config p.2).volumesFrom with
         | some vf => convert_volumes_from vf
         | none => []) := by
      rw [← hpc] at hmt
      exact hmt
    rcases List.mem_append.mp hm2 with h1 | h2
    · refine List.mem_append_right _ (hinflat _ ?_)
      exact positional_mount_in_gcv (name ++ "-" ++ p.1)
        ((merge_sidecar_config config p.2).volumes) mt h1
        (inherit_volumes config p.2) (inherit_volumes_eq_merged config p.2)
    · cases hscvf : p.2.volumesFrom with
      | some vf0 =>
        have hmvf : (merge_sidecar_config config p.2).volumesFrom = some vf0 := by
          simp [merge_sidecar_config, hscvf]
        rw [hmvf] at h2
        refine List.mem_append_right _ (hinflat _ ?_)
        refine vf_mount_in_gcv (name ++ "-" ++ p.1) vf0 mt h2
          (inherit_volumes config p.2) ?_
        rw [inherit_volumes_volumesFrom]
        exact hscvf
      | none =>
        have hmvf : (merge_sidecar_config config p.2).volumesFrom = config.volumesFrom := by
          simp [merge_sidecar_config, hscvf]
        rw [hmvf] at h2
        cases hcvf : config.volumesFrom with
        | none => rw [hcvf] at h2; simp at h2
        | some vf1 =>
          rw [hcvf] at h2
          exact List.mem_append_left _
            (vf_mount_in_gcv name vf1 mt h2 config.ctr hcvf)

/-! ## Lemmas: the running ingress class name -/

theorem expose_key_step_snd (l : List (String × SettingsVal)) :
    ∀ acc : Option (String × String × Int) × String,
      (l.foldl expose_key_step acc).2 = l.foldl icn_key_step acc.2 := by
  induction l with
  | nil => intro acc; rfl
  | cons kv t ih =>
    intro acc
    obtain ⟨d, sv⟩ := kv
    cases sv with
    | dict p pa po io =>
      cases io <;> simp [List.foldl_cons, expose_key_step, icn_key_step, ih]
    | other => simp [List.foldl_cons, expose_key_step, icn_key_step, ih]

theorem ingress_step_icn (name : String) (st : IngLoopState) (e : ExposeEntry) :
    (ingress_step name st e).icn = icnStep st.icn e := by
  cases e with
  | str s =>
    by_cases h : (pyStartsWith s "http://" || pyStartsWith s "https://") = true <;>
      simp [ingress_step, icnStep, h]
  | other => rfl
  | dict entries =>
    cases entries with
    | nil => rfl
    | cons kv t =>
      cases hfold : (kv :: t).foldl expose_key_step (st.vars, st.icn) with
      | mk v1 i1 =>
        have hsnd := expose_key_step_snd (kv :: t) (st.vars, st.icn)
        rw [hfold] at hsnd
        simp only [ingress_step, List.isEmpty_cons, icnStep]
        rw [hfold]
        cases v1 <;> simpa using hsnd

theorem ingress_fold_icn (name : String) :
    ∀ (es : List ExposeEntry) (st : IngLoopState),
      (es.foldl (ingress_step name) st).icn = es.foldl icnStep st.icn := by
  intro es
  induction es with
  | nil => intro st; rfl
  | cons e t ih =>
    intro st
    rw [List.foldl_cons, List.foldl_cons, ih, ingress_step_icn]

theorem icn_key_fold_id (entries : List (String × SettingsVal)) :
    (∀ kv ∈ entries, (match kv.2 with
      | SettingsVal.dict _ _ _ (some _) => true
      | _ => false) = false) →
    ∀ a, entries.foldl icn_key_step a = a := by
  induction entries with
  | nil => intro _ a; rfl
  | cons kv t ih =>
    intro h a
    rw [List.foldl_cons]
    have hkv := h kv (List.mem_cons_self _ _)
    have hstep : icn_key_step a kv = a := by
      obtain ⟨d, sv⟩ := kv
      cases sv with
      | dict p pa po io =>
        cases io with
        | none => rfl
        | some v => simp at hkv
      | other => rfl
    rw [hstep]
    exact ih (fun kv2 hkv2 => h kv2 (List.mem_cons_of_mem _ hkv2)) a

theorem icnStep_not_specified (e : ExposeEntry) (h : entrySpecifiesICN e = false)
    (a : String) : icnStep a e = a := by
  cases e with
  | str s => rfl
  | other => rfl
  | dict entries =>
    simp only [icnStep]
    simp only [entrySpecifiesICN, List.any_eq_false, Bool.not_eq_true] at h
    exact icn_key_fold_id entries h a

theorem icn_fold_id (es : List ExposeEntry) :
    (∀ e ∈ es, entrySpecifiesICN e = false) → ∀ a, es.foldl icnStep a = a := by
  induction es with
  | nil => intro _ a; rfl
  | cons e t ih =>
    intro h a
    rw [List.foldl_cons, icnStep_not_specified e (h e (List.mem_cons_self _ _))]
    exact ih (fun e2 he2 => h e2 (List.mem_cons_of_mem _ he2)) a

theorem lastICN_default (es : List ExposeEntry)
    (h : ∀ e ∈ es, entrySpecifiesICN e = false) :
    lastIngressClassName es = "traefik" :=
  icn_fold_id es h "traefik"

/-! ## Lemmas: bundle contents of the orchestrating generator -/

theorem generate_apps_parts (ns : String) (configs : List (String × ConfigSpec)) :
    ∀ (apps : List (String × AppConfig)) ds cs ss ings,
      generate_apps ns configs apps = .ok (ds, cs, ss, ings) →
      cs = apps.flatMap (fun _ => configs.filterMap fun p =>
            if p.2.external then none
            else some { name := "config-" ++ p.1, ns := ns, data := p.2.data }) ∧
      ds.map DeploymentRes.name = apps.map Prod.fst := by
  intro apps
  induction apps with
  | nil =>
    intro ds cs ss ings h
    simp only [generate_apps, Except.ok.injEq, Prod.mk.injEq] at h
    obtain ⟨h1, h2, h3, h4⟩ := h
    subst h1; subst h2
    simp
  | cons a rest ih =>
    intro ds cs ss ings h
    obtain ⟨an, ac⟩ := a
    by_cases hn : needs_service ac.ports ac.expose
    · cases hsv : service_generate ns an ac with
      | error e =>
        simp [generate_apps, hn, hsv, except_error_bind] at h
      | ok svcs =>
        cases hrec : generate_apps ns configs rest with
        | error e =>
          simp [generate_apps, hn, hsv, hrec, except_ok_bind, except_pure_bind, except_error_bind] at h
        | ok quad =>
          obtain ⟨ds2, cs2, ss2, ings2⟩ := quad
          have hparts := ih ds2 cs2 ss2 ings2 hrec
          simp only [generate_apps, hn, if_true, hsv, hrec, except_ok_bind,
            except_pure_bind, except_pure_eq_ok, Except.ok.injEq, Prod.mk.injEq] at h
          obtain ⟨h1, h2, h3, h4⟩ := h
          subst h1; subst h2
          constructor
          · rw [List.flatMap_cons, hparts.1]
            rfl
          · rw [List.map_cons]
            show (((deployment_generate ns an ac configs).1 ++ ds2).map DeploymentRes.name) = _
            rw [show (deployment_generate ns an ac configs).1 =
              [{ name := an, ns := ns, replicas := ac.replicas.getD 1,
                 containers := create_container an ac.ctr ::
                   ac.sidecars.map fun (sidecar_name, sc) =>
                     create_container (an ++ "-" ++ sidecar_name)
                       (merge_sidecar_config ac sc),
                 volumes := generate_volumes an ac }] from rfl]
            rw [List.cons_append, List.nil_append, List.map_cons, hparts.2]
    · cases hrec : generate_apps ns configs rest with
      | error e =>
        simp [generate_apps, hn, hrec, except_ok_bind, except_pure_bind, except_error_bind] at h
      | ok quad =>
        obtain ⟨ds2, cs2, ss2, ings2⟩ := quad
        have hparts := ih ds2 cs2 ss2 ings2 hrec
        simp only [generate_apps, hn, Bool.false_eq_true, if_false, hrec, except_ok_bind,
          except_pure_bind, except_pure_eq_ok, Except.ok.injEq, Prod.mk.injEq] at h
        obtain ⟨h1, h2, h3, h4⟩ := h
        subst h1; subst h2
        constructor
        · rw [List.flatMap_cons, hparts.1]
          rfl
        · rw [List.map_cons]
          show (((deployment_generate ns an ac configs).1 ++ ds2).map DeploymentRes.name) = _
          rw [show (deployment_generate ns an ac configs).1 =
            [{ name := an, ns := ns, replicas := ac.replicas.getD 1,
               containers := create_container an ac.ctr ::
                 ac.sidecars.map fun (sidecar_name, sc) =>
                   create_container (an ++ "-" ++ sidecar_name)
                     (merge_sidecar_config ac sc),
               volumes := generate_volumes an ac }] from rfl]
          rw [List.cons_append, List.nil_append, List.map_cons, hparts.2]

/-! ## Lemmas: service port names -/

theorem port_name_ne_lbhttps (i : Nat) : ("port-" ++ toString i) ≠ "lb-https" := by
  intro h
  have hd := congrArg String.data h
  simp [String.data_append] at hd

theorem lbport_name_ne_lbhttps (i : Nat) : ("lb-port-" ++ toString i) ≠ "lb-https" := by
  intro h
  have hd := congrArg String.data h
  simp [String.data_append] at hd

theorem sidecar_service_port_names (ns a sn : String) (sc : SidecarConfig)
    (s : Service) (hs : s ∈ generate_sidecar_services ns a sn sc)
    (q : ServicePort) (hq : q ∈ s.ports) :
    (∃ i : Nat, q.name = "port-" ++ toString i) ∨
    (∃ i : Nat, q.name = "lb-port-" ++ toString i) := by
  simp only [generate_sidecar_services] at hs
  by_cases ht : listTruthy sc.ports = true
  · rw [if_pos ht] at hs
    by_cases hx : (sc.ports.getD []).any is_external_port = true
    · rw [if_pos hx] at hs
      rcases List.mem_cons.mp hs with h1 | h2
      · subst h1
        obtain ⟨⟨i, p⟩, hip, hqe⟩ := List.mem_map.mp hq
        exact Or.inl ⟨i, by rw [← hqe]⟩
      · rcases List.mem_cons.mp h2 with h3 | h4
        · subst h3
          obtain ⟨⟨i, p⟩, hip, hqe⟩ := List.mem_map.mp hq
          exact Or.inr ⟨i, by rw [← hqe]⟩
        · simp at h4
    · rw [if_neg hx] at hs
      rw [List.mem_singleton] at hs
      subst hs
      obtain ⟨⟨i, p⟩, hip, hqe⟩ := List.mem_map.mp hq
      exact Or.inl ⟨i, by rw [← hqe]⟩
  · rw [if_neg ht] at hs
    simp at hs

/-! ## Claim theorems -/

/-- C8: validation raises a descriptive failure (a `Violation` carrying the
offending app, the sidecar when applicable, and the offending name — rendered
by `Violation.message`) if and only if some config name referenced via
`volumesFrom` or `envFrom` (in an app or sidecar) is absent from `configs`,
or such a referenced config is marked external but absent from the
external-configs set, or some secret name referenced via `envFrom` is absent
from the external-secrets set; the first violation found in iteration order
aborts validation (fail-fast): the validator equals the fail-fast reading of
the full violation list, succeeds iff that list is empty, and on failure
returns exactly its head. -/
theorem claim_C8_validator_fail_fast :
    (∀ (m : ComposeModel) (ec es : List String),
       validate_external_resources m ec es = firstViolation (violationList m ec es)) ∧
    (∀ (m : ComposeModel) (ec es : List String),
       validate_external_resources m ec es = .ok () ↔ violationList m ec es = []) ∧
    (∀ (m : ComposeModel) (ec es : List String) (v : Violation),
       validate_external_resources m ec es = .error v ↔
         (violationList m ec es).head? = some v) := by
  refine ⟨validate_external_resources_eq, ?_, ?_⟩
  · intro m ec es
    rw [validate_external_resources_eq]
    cases violationList m ec es <;> simp [firstViolation]
  · intro m ec es v
    rw [validate_external_resources_eq]
    cases violationList m ec es <;> simp [firstViolation]

/-- C3: delete calls are issued grouped by kind in the literal order
`ingress, deployments, services, configmaps, pvcs`, independent of the
bundle's own key order; a NotFound (404) response to an individual delete is
swallowed as a no-op, and any other cluster error is wrapped with the kind
and name and aborts the remaining deletes while keeping those already
performed. -/
theorem claim_C3_delete_order_and_errors :
    (∀ (oracle : DeleteOracle) (bundle : Bundle),
       delete_resources oracle bundle = deleteTrace oracle (canonicalDeleteCalls bundle)) ∧
    (∀ (oracle : DeleteOracle) (b1 b2 : Bundle),
       (∀ k, b1.lookup k = b2.lookup k) →
       delete_resources oracle b1 = delete_resources oracle b2) ∧
    (∀ (oracle : DeleteOracle) (bundle : Bundle),
       (∀ c ∈ canonicalDeleteCalls bundle, (oracle c.1 c.2).benign) →
       delete_resources oracle bundle = (canonicalDeleteCalls bundle, none)) ∧
    (∀ (oracle : DeleteOracle) (bundle : Bundle) (l1 : List (Kind × String))
       (k : Kind) (n : String) (l2 : List (Kind × String)) (status : Int)
       (reason : String),
       canonicalDeleteCalls bundle = l1 ++ (k, n) :: l2 →
       (∀ c ∈ l1, (oracle c.1 c.2).benign) →
       oracle k n = .apiError status reason → status ≠ 404 →
       delete_resources oracle bundle =
         (l1 ++ [(k, n)],
          some ("Failed to delete " ++ k.tag ++ " '" ++ n ++ "': " ++ reason))) := by
  refine ⟨delete_resources_eq, ?_, ?_, ?_⟩
  · intro oracle b1 b2 h
    rw [delete_resources_eq, delete_resources_eq]
    have hc : canonicalDeleteCalls b1 = canonicalDeleteCalls b2 := by
      rw [canonicalDeleteCalls, canonicalDeleteCalls]
      apply congrArg
      funext k
      rw [h k]
    rw [hc]
  · intro oracle bundle h
    rw [delete_resources_eq]
    exact deleteTrace_benign oracle _ h
  · intro oracle bundle l1 k n l2 status reason hdec hben ho hs
    rw [delete_resources_eq, hdec]
    exact deleteTrace_abort oracle l1 k n l2 status reason hben ho hs

/-- Witness for C3: a concrete bundle whose keys are listed in non-canonical
order, against an oracle that fails on one configmap: deletes run in the
fixed kind order and abort at the failure with the wrapped message. -/
theorem claim_C3_witness :
    delete_resources
      (fun _ n => if n = "cm-bad" then .apiError 500 "boom" else .ok)
      [(Kind.configmaps, [{ name := "cm-ok" }, { name := "cm-bad" }]),
       (Kind.ingress, [{ name := "ing1" }]),
       (Kind.deployments, [{ name := "dep1" }])] =
      ([(Kind.ingress, "ing1"), (Kind.deployments, "dep1"),
        (Kind.configmaps, "cm-ok"), (Kind.configmaps, "cm-bad")],
       some "Failed to delete configmaps 'cm-bad': boom") := by
  have h := claim_C3_delete_order_and_errors.2.2.2
    (fun _ n => if n = "cm-bad" then .apiError 500 "boom" else .ok)
    [(Kind.configmaps, [{ name := "cm-ok" }, { name := "cm-bad" }]),
     (Kind.ingress, [{ name := "ing1" }]),
     (Kind.deployments, [{ name := "dep1" }])]
    [(Kind.ingress, "ing1"), (Kind.deployments, "dep1"), (Kind.configmaps, "cm-ok")]
    Kind.configmaps "cm-bad" [] 500 "boom"
    (by decide) (by decide) (by decide) (by decide)
  exact h

/-- C2 (amended): for a bundle whose manifests have pairwise-distinct
(kind, name) targets, applying against a cluster containing none of the
targets issues exactly one create call per manifest and no patch; the
cluster then contains exactly the old contents plus the targets, and
re-applying issues exactly one patch call per manifest, no create, and
leaves the cluster unchanged. -/
theorem claim_C2_apply_roundtrip (bundle : Bundle) (s0 : Cluster)
    (habs : ∀ x ∈ bundleTargets bundle, x ∉ s0)
    (hnd : (bundleTargets bundle).Nodup) :
    (apply_resources bundle s0).2 =
      (bundleTargets bundle).map (fun x => ApplyCall.create x.1 x.2) ∧
    (∀ x, x ∈ (apply_resources bundle s0).1 ↔ x ∈ bundleTargets bundle ∨ x ∈ s0) ∧
    (apply_resources bundle ((apply_resources bundle s0).1)).2 =
      (bundleTargets bundle).map (fun x => ApplyCall.patch x.1 x.2) ∧
    (apply_resources bundle ((apply_resources bundle s0).1)).1 =
      (apply_resources bundle s0).1 := by
  have h1 := apply_resources_create bundle s0 habs hnd
  have hall : ∀ x ∈ bundleTargets bundle, x ∈ (apply_resources bundle s0).1 := by
    intro x hx
    rw [h1]
    exact List.mem_append_left _ (List.mem_reverse.mpr hx)
  have h2 := apply_resources_patch bundle ((apply_resources bundle s0).1) hall
  refine ⟨by rw [h1], ?_, by rw [h2], by rw [h2]⟩
  intro x
  rw [h1]
  simp [List.mem_append, List.mem_reverse, Or.comm]

/-- Witness for C2: two kinds, two manifests, empty cluster: first pass is
two creates, second pass two patches. -/
theorem claim_C2_witness :
    (apply_resources [(Kind.configmaps, [{ name := "c1" }]),
        (Kind.services, [{ name := "s1" }])] []).2 =
      [ApplyCall.create Kind.configmaps "c1", ApplyCall.create Kind.services "s1"] ∧
    (apply_resources [(Kind.configmaps, [{ name := "c1" }]),
        (Kind.services, [{ name := "s1" }])]
      ((apply_resources [(Kind.configmaps, [{ name := "c1" }]),
        (Kind.services, [{ name := "s1" }])] []).1)).2 =
      [ApplyCall.patch Kind.configmaps "c1", ApplyCall.patch Kind.services "s1"] := by
  have h := claim_C2_apply_roundtrip
    [(Kind.configmaps, [{ name := "c1" }]), (Kind.services, [{ name := "s1" }])] []
    (by decide) (by decide)
  exact ⟨h.1, h.2.2.1⟩

/-- Counterexample for C2 as stated: a bundle with two manifests sharing the
same (kind, name) target, applied against a cluster where that target is
absent, issues one create and one patch — not one create per manifest and no
patch — because the first create makes the target visible to the second
manifest's read. -/
theorem claim_C2_counterexample :
    (apply_resources [(Kind.services, [{ name := "x" }, { name := "x" }])] []).2 =
      [ApplyCall.create Kind.services "x", ApplyCall.patch Kind.services "x"] ∧
    (apply_resources [(Kind.services, [{ name := "x" }, { name := "x" }])] []).2 ≠
      (bundleTargets [(Kind.services, [{ name := "x" }, { name := "x" }])]).map
        (fun x => ApplyCall.create x.1 x.2) := by
  constructor <;> decide

theorem mem_name_dedup (x : String) (l : List KVolume) :
    x ∈ (dedupByName [] l).map KVolume.name ↔ x ∈ l.map KVolume.name := by
  rw [List.mem_map, List.mem_map]
  constructor
  · rintro ⟨v, hv, hvn⟩
    obtain ⟨w, hw, hwn⟩ := (dedupByName_mem_name x l [] (by simp)).mp ⟨v, hv, hvn⟩
    exact ⟨w, hw, hwn⟩
  · rintro ⟨v, hv, hvn⟩
    obtain ⟨w, hw, hwn⟩ := (dedupByName_mem_name x l [] (by simp)).mpr ⟨v, hv, hvn⟩
    exact ⟨w, hw, hwn⟩

/-- C4: the volume mount name computed by the Deployment generator for a
positional `volumes` entry at index `i` under owner name `N` is
`"vol-{N}-{i}"` and is identical to the volume name computed by the Volume
generator for the same owner/index pair (the generated mount-name and
volume-name lists agree pointwise); consequently, in every generated
Deployment, every volumeMount of every container references a volume present
in that Deployment's pod-level volume list. -/
theorem claim_C4_volume_naming :
    (∀ (N : String) (entries : List VolumeEntry),
       (convert_volume_mounts N 0 entries).map VolumeMount.name =
         (positional_volumes N 0 entries).map KVolume.name) ∧
    (∀ (N : String) (entries : List VolumeEntry) (i : Nat) (s : String),
       entries.get? i = some (.str s) → 2 ≤ (pySplit s ':').length →
       ("vol-" ++ N ++ "-" ++ toString i) ∈
           (convert_volume_mounts N 0 entries).map VolumeMount.name ∧
       ("vol-" ++ N ++ "-" ++ toString i) ∈
           (positional_volumes N 0 entries).map KVolume.name) ∧
    (∀ (ns name : String) (config : AppConfig) (configs : List (String × ConfigSpec)),
       ∀ dep ∈ (deployment_generate ns name config configs).1,
         ∀ c ∈ dep.containers, ∀ mt ∈ c.volumeMounts,
           ∃ v ∈ dep.volumes, v.name = mt.name) := by
  refine ⟨fun N entries => mounts_volumes_name_eq N 0 entries, ?_, deployment_mount_names⟩
  intro N entries i s hget hlen
  constructor
  · have h := mount_name_at_index N entries 0 i s hget hlen
    rwa [Nat.zero_add] at h
  · exact volume_name_at_index N entries i s hget hlen

/-- Witness for C4: the app-inheritance example: a hostPath entry at index 0
of app `whoami` names its mount `vol-whoami-0` in both generators, and the
generated Deployment's sidecar mount resolves against the pod volume
list. -/
theorem claim_C4_witness :
    (("vol-" ++ "whoami" ++ "-" ++ toString 0) ∈
       (convert_volume_mounts "whoami" 0 [.str "/h:/c"]).map VolumeMount.name ∧
     ("vol-" ++ "whoami" ++ "-" ++ toString 0) ∈
       (positional_volumes "whoami" 0 [.str "/h:/c"]).map KVolume.name) ∧
    (∃ v ∈ ({ name := "whoami", ns := "default", replicas := 1,
              containers := [{ name := "whoami", image := "i",
                               volumeMounts := [{ name := "vol-whoami-0",
                                                  mountPath := "/c" }] },
                             { name := "whoami-s", image := "j",
                               volumeMounts := [{ name := "vol-whoami-s-0",
                                                  mountPath := "/c" }] }],
              volumes := [{ name := "vol-whoami-0", source := .hostPath "/h" },
                          { name := "vol-whoami-s-0",
                            source := .hostPath "/h" }] } : DeploymentRes).volumes,
      v.name = ({ name := "vol-whoami-s-0", mountPath := "/c" } : VolumeMount).name) := by
  constructor
  · exact claim_C4_volume_naming.2.1 "whoami" [.str "/h:/c"] 0 "/h:/c" rfl (by decide)
  · exact claim_C4_volume_naming.2.2 "default" "whoami"
      { image := "i", volumes := some [.str "/h:/c"], sidecars := [("s", { image := "j" })] } []
      { name := "whoami", ns := "default", replicas := 1,
        containers := [{ name := "whoami", image := "i",
                         volumeMounts := [{ name := "vol-whoami-0", mountPath := "/c" }] },
                       { name := "whoami-s", image := "j",
                         volumeMounts := [{ name := "vol-whoami-s-0", mountPath := "/c" }] }],
        volumes := [{ name := "vol-whoami-0", source := .hostPath "/h" },
                    { name := "vol-whoami-s-0", source := .hostPath "/h" }] }
      (by decide)
      { name := "whoami-s", image := "j",
        volumeMounts := [{ name := "vol-whoami-s-0", mountPath := "/c" }] }
      (by decide)
      { name := "vol-whoami-s-0", mountPath := "/c" }
      (by decide)

/-- Counterexample for C5 as stated: an app with one positional volume entry
and a sidecar inheriting it: `generate_volumes` returns two volume
definitions (one per owner name), not one, because the inherited entry is
named `vol-a-0` for the app but `vol-a-s-0` for the sidecar, so the
by-name deduplication does not collapse them. -/
theorem claim_C5_counterexample :
    generate_volumes "a" { image := "i", volumes := some [.str "/h:/c"], sidecars := [("s", { image := "j" })] } =
      [{ name := "vol-a-0", source := .hostPath "/h" },
       { name := "vol-a-s-0", source := .hostPath "/h" }] ∧
    (generate_volumes "a" { image := "i", volumes := some [.str "/h:/c"], sidecars := [("s", { image := "j" })] }).length ≠ 1 := by
  constructor <;> decide

/-- C5 (amended): for an app declaring `volumes` and a sidecar declaring
none (so it inherits the app's list), `generate_volumes` returns one volume
definition per owner/entry pair — the inherited entry appears once under the
app's name `vol-{app}-{i}` and once under the sidecar's name
`vol-{app}-{sidecar}-{i}` — and the final deduplication by name keeps only
the first occurrence of each name (it collapses same-name duplicates such as
config-backed volumes, not the owner-distinct inherited entries). -/
theorem claim_C5_inherited_volumes (name : String) (config : AppConfig)
    (vs : List VolumeEntry) (sn : String) (sc : SidecarConfig)
    (hv : config.volumes = some vs) (hs : config.sidecars = [(sn, sc)])
    (hscv : sc.volumes = none) (hscvf : sc.volumesFrom = none)
    (hcvf : config.volumesFrom = none)
    (i : Nat) (s : String) (hget : vs.get? i = some (.str s))
    (hlen : 2 ≤ (pySplit s ':').length) :
    (("vol-" ++ name ++ "-" ++ toString i) ∈
        (generate_volumes name config).map KVolume.name ∧
     ("vol-" ++ (name ++ "-" ++ sn) ++ "-" ++ toString i) ∈
        (generate_volumes name config).map KVolume.name) ∧
    (∀ (l : List KVolume) (n : String),
       (dedupByName [] l).find? (fun v => v.name == n) =
         l.find? (fun v => v.name == n)) := by
  have hgv : generate_volumes name config =
      dedupByName []
        (positional_volumes name 0 vs ++
         positional_volumes (name ++ "-" ++ sn) 0 vs) := by
    simp [generate_volumes, generate_volumes_full, generate_container_volumes,
      AppConfig.ctr, hv, hs, hscv, hscvf, hcvf, inherit_volumes]
  refine ⟨⟨?_, ?_⟩, fun l n => dedupByName_find n l [] (by simp)⟩
  · rw [hgv, mem_name_dedup, List.map_append]
    exact List.mem_append_left _ (volume_name_at_index name vs i s hget hlen)
  · rw [hgv, mem_name_dedup, List.map_append]
    exact List.mem_append_right _
      (volume_name_at_index (name ++ "-" ++ sn) vs i s hget hlen)

/-- Witness for C5 (amended): the counterexample input instantiated: both
owner-qualified names are present in the output. -/
theorem claim_C5_witness :
    ("vol-" ++ "a" ++ "-" ++ toString 0) ∈
      (generate_volumes "a" { image := "i", volumes := some [.str "/h:/c"], sidecars := [("s", { image := "j" })] }).map KVolume.name ∧
    ("vol-" ++ ("a" ++ "-" ++ "s") ++ "-" ++ toString 0) ∈
      (generate_volumes "a" { image := "i", volumes := some [.str "/h:/c"], sidecars := [("s", { image := "j" })] }).map KVolume.name := by
  have h := claim_C5_inherited_volumes "a"
    { image := "i", volumes := some [.str "/h:/c"], sidecars := [("s", { image := "j" })] }
    [.str "/h:/c"] "s" { image := "j" } rfl rfl rfl rfl rfl 0 "/h:/c" rfl (by decide)
  exact h.1

/-- C6 (amended): when generation succeeds, the bundle contains one
ConfigMap manifest per (app, non-external config) pair — the per-app
deployment generation re-emits every non-external top-level config, named
`config-{name}` with its data copied verbatim — together with exactly one
Deployment per app (in app order, named after the app) and one PVC per
top-level volume. -/
theorem claim_C6_bundle_contents (ns : String) (m : ComposeModel)
    (res : GenResources) (h : generate_all_raw ns m = .ok res) :
    res.configmaps = m.apps.flatMap (fun _ => m.configs.filterMap fun p =>
        if p.2.external then none
        else some { name := "config-" ++ p.1, ns := ns, data := p.2.data }) ∧
    res.deployments.map DeploymentRes.name = m.apps.map Prod.fst ∧
    res.pvcs = m.volumes.map fun p => generate_pvc ns p.1 p.2 := by
  cases hga : generate_apps ns m.configs m.apps with
  | error e =>
    simp [generate_all_raw, hga, except_error_bind] at h
  | ok quad =>
    obtain ⟨ds, cs, ss, ings⟩ := quad
    have hp := generate_apps_parts ns m.configs m.apps ds cs ss ings hga
    simp only [generate_all_raw, hga, except_ok_bind, except_pure_eq_ok,
      Except.ok.injEq] at h
    subst h
    exact ⟨hp.1, hp.2, rfl⟩

/-- Witness for C6: one app, one inline config, one volume. -/
theorem claim_C6_witness :
    ({ configmaps := [{ name := "config-c", ns := "d", data := [("k", "v")] }],
       pvcs := [{ name := "v1", ns := "d", storage := "1Gi" }],
       deployments := [{ name := "a", ns := "d", replicas := 1,
                         containers := [{ name := "a", image := "i",
                                          volumeMounts := [] }],
                         volumes := [] }],
       services := [], ingress := [] } : GenResources).configmaps =
      ([("a", ({ image := "i" } : AppConfig))].flatMap fun _ =>
        [("c", ({ external := false, data := [("k", "v")] } : ConfigSpec))].filterMap fun p =>
          if p.2.external then none
          else some { name := "config-" ++ p.1, ns := "d", data := p.2.data }) ∧
    ({ configmaps := [{ name := "config-c", ns := "d", data := [("k", "v")] }],
       pvcs := [{ name := "v1", ns := "d", storage := "1Gi" }],
       deployments := [{ name := "a", ns := "d", replicas := 1,
                         containers := [{ name := "a", image := "i",
                                          volumeMounts := [] }],
                         volumes := [] }],
       services := [], ingress := [] } : GenResources).deployments.map
        DeploymentRes.name =
      [("a", ({ image := "i" } : AppConfig))].map Prod.fst := by
  have h := claim_C6_bundle_contents "d"
    { apps := [("a", { image := "i" })],
      configs := [("c", { external := false, data := [("k", "v")] })],
      volumes := [("v1", {})] }
    { configmaps := [{ name := "config-c", ns := "d", data := [("k", "v")] }],
      pvcs := [{ name := "v1", ns := "d", storage := "1Gi" }],
      deployments := [{ name := "a", ns := "d", replicas := 1,
                        containers := [{ name := "a", image := "i",
                                         volumeMounts := [] }],
                        volumes := [] }],
      services := [], ingress := [] }
    (by decide)
  exact ⟨h.1, h.2.1⟩

/-- Counterexample for C6 as stated: a model with two apps and one
non-external config yields two `config-c` ConfigMap manifests in the bundle
— one per app — not exactly one per non-external config entry. -/
theorem claim_C6_counterexample :
    (generate_all_raw "default"
      { apps := [("a", { image := "i" }), ("b", { image := "j" })],
        configs := [("c", { external := false, data := [("k", "v")] })] }).map
      (fun r => (r.configmaps.map ConfigMapRes.name, r.deployments.length)) =
    .ok (["config-c", "config-c"], 2) := by decide

/-- C9 is wrong about the code (code bug): `generate_volumes` mutates the
parsed model.  On an app declaring `volumes` with a sidecar declaring none,
the call writes the app's volumes list into the sidecar's spec
(`volume_generator.py:26`), so the post-call model differs from the input
model — the ComposeModel is not immutable after parsing. -/
theorem claim_C9_model_mutation :
    (generate_volumes_full "a" { image := "i", volumes := some [.str "/h:/c"], sidecars := [("s", { image := "j" })] }).2 =
      { image := "i", volumes := some [.str "/h:/c"],
        sidecars := [("s", { image := "j", volumes := some [.str "/h:/c"] })] } ∧
    (generate_volumes_full "a" { image := "i", volumes := some [.str "/h:/c"], sidecars := [("s", { image := "j" })] }).2 ≠
      { image := "i", volumes := some [.str "/h:/c"], sidecars := [("s", { image := "j" })] } := by
  constructor <;> decide

/-- C10: service generation is not best-effort: with every `ports` entry
malformed the generator indexes the empty converted list at 0, and with two
raw entries of which only one converts it indexes position 1 out of range —
both raise an uncaught IndexError instead of skipping. -/
theorem claim_C10_service_indexing :
    service_generate "default" "app"
      { image := "i", ports := some [.str "bad", .str "also:bad"] } =
      .error "IndexError: list index out of range" ∧
    service_generate "default" "app"
      { image := "i", ports := some [.str "9090:90", .str "bad"] } =
      .error "IndexError: list index out of range" := by
  constructor <;> decide

/-- C1 (amended): for an app spec with a non-empty `ports` list of which at
least one entry converts to a service port (and at least two convert
whenever two or more are declared), `generate` succeeds; the first service
is the default Service (ClusterIP, name = app name, selector
`{app, component: main}`) whose single port is named `default` and carries
the first converted service port; a `-lb` LoadBalancer Service with the
single port `lb-https` carrying the second converted service port is
produced when the raw list has two or more entries, and conversely any
produced service whose port list is exactly one port named `lb-https`
implies two or more raw entries. -/
theorem claim_C1_service_tiers (ns name : String) (config : AppConfig)
    (ps : List PortEntry) (hps : config.ports = some ps) (hne : ps ≠ [])
    (h1 : convert_service_ports ps ≠ [])
    (h2 : 1 < ps.length → 2 ≤ (convert_service_ports ps).length) :
    ∃ svcs, service_generate ns name config = .ok svcs ∧
      (∃ p0, (convert_service_ports ps).head? = some p0 ∧
         svcs.head? = some (defaultService ns name p0)) ∧
      (1 < ps.length →
         ∃ p1, (convert_service_ports ps).get? 1 = some p1 ∧
           lbService ns name p1 ∈ svcs) ∧
      (∀ s ∈ svcs, s.ports.map ServicePort.name = ["lb-https"] → 1 < ps.length) := by
  have htr : listTruthy (some ps) = true := by
    cases ps with
    | nil => exact absurd rfl hne
    | cons a b => rfl
  obtain ⟨p0, cr, hcr⟩ : ∃ p0 cr, convert_service_ports ps = p0 :: cr := by
    cases hh : convert_service_ports ps with
    | nil => exact absurd hh h1
    | cons a b => exact ⟨a, b, rfl⟩
  by_cases hlen : 1 < ps.length
  · have hc2 := h2 hlen
    rw [hcr] at hc2
    obtain ⟨p1, cr2, hcr2⟩ : ∃ p1 cr2, cr = p1 :: cr2 := by
      cases hcc : cr with
      | nil => rw [hcc] at hc2; simp at hc2
      | cons a b => exact ⟨a, b, rfl⟩
    refine ⟨[defaultService ns name p0] ++
        (config.sidecars.flatMap fun (sn, sc) =>
          if needs_service sc.ports none then generate_sidecar_services ns name sn sc
          else []) ++
        [lbService ns name p1] ++
        (if listTruthy config.expose then [ingressService ns name] else []),
      ?_, ⟨p0, by rw [hcr]; rfl, by simp⟩, ?_, ?_⟩
    · simp [service_generate, hps, htr, hcr, hcr2, hlen, except_pure_bind,
        except_ok_bind, except_pure_eq_ok]
    · intro _
      refine ⟨p1, by rw [hcr, hcr2]; rfl, ?_⟩
      exact List.mem_append_left _ (List.mem_append_right _ (List.mem_singleton_self _))
    · intro s _ _
      exact hlen
  · refine ⟨[defaultService ns name p0] ++
        (config.sidecars.flatMap fun (sn, sc) =>
          if needs_service sc.ports none then generate_sidecar_services ns name sn sc
          else []) ++
        (if listTruthy config.expose then [ingressService ns name] else []),
      ?_, ⟨p0, by rw [hcr]; rfl, by simp⟩, fun hl => absurd hl hlen, ?_⟩
    · simp [service_generate, hps, htr, hcr, hlen, except_pure_bind,
        except_ok_bind, except_pure_eq_ok]
    · intro s hs hname
      exfalso
      rcases List.mem_append.mp hs with hs1 | hs3
      · rcases List.mem_append.mp hs1 with hs0 | hside
        · rw [List.mem_singleton] at hs0
          subst hs0
          simp [defaultService] at hname
        · obtain ⟨⟨sn, sc⟩, hmem, hin0⟩ := List.mem_flatMap.mp hside
          have hin : s ∈ (if needs_service sc.ports none = true then
              generate_sidecar_services ns name sn sc else []) := hin0
          by_cases hneed : needs_service sc.ports none = true
          · rw [if_pos hneed] at hin
            obtain ⟨q, hq⟩ : ∃ q, q ∈ s.ports ∧ q.name = "lb-https" := by
              cases hp : s.ports with
              | nil => rw [hp] at hname; simp at hname
              | cons q t =>
                rw [hp] at hname
                simp only [List.map_cons, List.cons.injEq] at hname
                exact ⟨q, List.mem_cons_self _ _, hname.1⟩
            rcases sidecar_service_port_names ns name sn sc s hin q hq.1 with ⟨i, hi⟩ | ⟨i, hi⟩
            · exact port_name_ne_lbhttps i (hi ▸ hq.2)
            · exact lbport_name_ne_lbhttps i (hi ▸ hq.2)
          · rw [if_neg hneed] at hin
            simp at hin
      · by_cases hexp : listTruthy config.expose = true
        · rw [if_pos hexp, List.mem_singleton] at hs3
          subst hs3
          simp [ingressService] at hname
        · rw [if_neg hexp] at hs3
          simp at hs3

/-- Witness for C1: the two-port `whoami` example of the tests. -/
theorem claim_C1_witness :
    ∃ svcs, service_generate "default" "whoami"
        { image := "traefik/whoami:latest",
          ports := some [.str "8080:80", .str "8443:443"],
          expose := some [.dict [("example.com", .dict none none (some 80) none)]] } =
        .ok svcs ∧
      (∃ p0, (convert_service_ports [.str "8080:80", .str "8443:443"]).head? = some p0 ∧
         svcs.head? = some (defaultService "default" "whoami" p0)) ∧
      (1 < ([PortEntry.str "8080:80", PortEntry.str "8443:443"]).length →
         ∃ p1, (convert_service_ports [.str "8080:80", .str "8443:443"]).get? 1 = some p1 ∧
           lbService "default" "whoami" p1 ∈ svcs) ∧
      (∀ s ∈ svcs, s.ports.map ServicePort.name = ["lb-https"] →
         1 < ([PortEntry.str "8080:80", PortEntry.str "8443:443"]).length) :=
  claim_C1_service_tiers "default" "whoami"
    { image := "traefik/whoami:latest",
      ports := some [.str "8080:80", .str "8443:443"],
      expose := some [.dict [("example.com", .dict none none (some 80) none)]] }
    [.str "8080:80", .str "8443:443"] rfl (by decide) (by decide) (fun _ => by decide)

/-- Counterexample for C1 as stated: an app spec with the non-empty `ports`
list `["bad"]` produces no default Service at all — `generate` raises an
IndexError instead (the single entry does not convert, and the code indexes
the empty converted list). -/
theorem claim_C1_counterexample :
    service_generate "default" "app" { image := "i", ports := some [.str "bad"] } =
      .error "IndexError: list index out of range" ∧
    ∀ svcs, service_generate "default" "app" { image := "i", ports := some [.str "bad"] } ≠
      .ok svcs := by
  have h : service_generate "default" "app" { image := "i", ports := some [.str "bad"] } =
      .error "IndexError: list index out of range" := by decide
  refine ⟨h, fun svcs hok => ?_⟩
  rw [h] at hok
  exact Except.noConfusion hok

/-- C7 (amended): no Ingress is produced when `expose` is absent or no entry
yields a usable rule; when an Ingress is produced, its `ingressClassName` is
the last `ingressClassName` value encountered while iterating the `expose`
entries in order — except that an empty-string value, though it overwrites
the running value, makes the field be omitted (`if ingress_class_name:`) —
and it is `"traefik"` when no entry specifies one; a single-key mapping
entry with dict-valued settings yields one rule whose path defaults to `"/"`
and whose service port defaults to 80. -/
theorem claim_C7_ingress_class :
    (∀ (ns name : String) (config : AppConfig), config.expose = none →
       ingress_generate ns name config = none) ∧
    (∀ (ns name : String) (config : AppConfig) (es : List ExposeEntry),
       config.expose = some es →
       (ingress_generate ns name config = none ↔
         (es.foldl (ingress_step name)
           { rules := [], icn := "traefik", vars := none }).rules = [])) ∧
    (∀ (ns name : String) (config : AppConfig) (es : List ExposeEntry) (ing : IngressRes),
       config.expose = some es →
       ingress_generate ns name config = some ing →
       (ing.ingressClassName =
          (if lastIngressClassName es = "" then none
           else some (lastIngressClassName es)) ∧
        ((∀ e ∈ es, entrySpecifiesICN e = false) →
          ing.ingressClassName = some "traefik"))) ∧
    (∀ (name : String) (st : IngLoopState) (d : String) (proto path : Option String)
       (port : Option Int) (icn : Option String),
       ingress_step name st (.dict [(d, .dict proto path port icn)]) =
         { rules := st.rules ++
             [{ host := pyRstrip d ':', path := path.getD "/",
                serviceName := name, portNumber := port.getD 80 }],
           icn := match icn with | some v => v | none => st.icn,
           vars := some (pyRstrip d ':', path.getD "/", port.getD 80) }) := by
  refine ⟨?_, ?_, ?_, ?_⟩
  · intro ns name config h
    simp [ingress_generate, h]
  · intro ns name config es h
    simp only [ingress_generate, h]
    cases hre : (es.foldl (ingress_step name)
        { rules := [], icn := "traefik", vars := none }).rules with
    | nil => simp [hre]
    | cons r t => simp [hre]
  · intro ns name config es ing h hsome
    simp only [ingress_generate, h] at hsome
    cases hre : (es.foldl (ingress_step name)
        { rules := [], icn := "traefik", vars := none }).rules with
    | nil => rw [hre] at hsome; simp at hsome
    | cons r t =>
      rw [hre] at hsome
      simp only [List.isEmpty_cons, Bool.false_eq_true, if_false,
        Option.some.injEq] at hsome
      have hicn : (es.foldl (ingress_step name)
          { rules := [], icn := "traefik", vars := none }).icn =
          lastIngressClassName es :=
        ingress_fold_icn name es { rules := [], icn := "traefik", vars := none }
      subst hsome
      constructor
      · dsimp only
        rw [hicn]
      · intro hno
        dsimp only
        rw [hicn, lastICN_default es hno]
        simp
  · intro name st d proto path port icn
    cases icn <;> rfl

/-- Witness for C7: a two-entry expose list whose last entry sets
`ingressClassName: custom`: the generated Ingress carries it. -/
theorem claim_C7_witness :
    ({ name := "app", ns := "d", ingressClassName := some "custom",
       rules := [{ host := "a", path := "/", serviceName := "app", portNumber := 80 },
                 { host := "b", path := "/", serviceName := "app",
                   portNumber := 80 }] } : IngressRes).ingressClassName =
      (if lastIngressClassName
          [.dict [("a", .dict none none none none)],
           .dict [("b", .dict none none none (some "custom"))]] = "" then none
       else some (lastIngressClassName
          [.dict [("a", .dict none none none none)],
           .dict [("b", .dict none none none (some "custom"))]])) := by
  have h := claim_C7_ingress_class.2.2.1 "d" "app"
    { image := "i",
      expose := some [.dict [("a", .dict none none none none)],
                      .dict [("b", .dict none none none (some "custom"))]] }
    [.dict [("a", .dict none none none none)],
     .dict [("b", .dict none none none (some "custom"))]]
    { name := "app", ns := "d", ingressClassName := some "custom",
      rules := [{ host := "a", path := "/", serviceName := "app", portNumber := 80 },
                { host := "b", path := "/", serviceName := "app", portNumber := 80 }] }
    rfl (by decide)
  exact h.1

/-- Counterexample for C7 as stated: an entry setting `ingressClassName` to
the empty string is the last value encountered, yet the generated Ingress
has no `ingressClassName` field at all (the code adds the field only when
the running value is truthy), so the field does not equal the last
encountered value. -/
theorem claim_C7_counterexample :
    ingress_generate "default" "app"
      { image := "i", expose := some [.dict [("h", .dict none none none (some ""))]] } =
      some { name := "app", ns := "default", ingressClassName := none,
             rules := [{ host := "h", path := "/", serviceName := "app",
                         portNumber := 80 }] } ∧
    lastIngressClassName [.dict [("h", .dict none none none (some ""))]] = "" := by
  constructor <;> decide

end KStack
